import Mathlib

/-!
Verification of the python-inspector dependency resolver against its
natural-language specification.

The development shallowly embeds the Python source of the repository
(src/python_inspector/resolution.py, utils_pypi.py, api.py) into Lean.
Python strings are modeled as lists of characters (type Str); Python
functions that can fail return Option or Except values.  Behavior of
third-party libraries that the source calls (the packvers fork of
pypa/packaging 21.3 for versions, specifiers and markers, and the
CPython urllib.parse module) is modeled faithfully for the fragment the
source exercises; each such model is marked in its doc comment.
-/

/-- Python strings are modeled as lists of characters. -/
abbrev Str := List Char

/-- Convert a Lean string literal to the character-list model. -/
def str (s : String) : Str := s.data

namespace PyStr

/-- The list n-1, n-2, ..., 1, 0: descending scan order used to find the
last occurrence of a pattern, as Python str.rpartition does. -/
def downFrom : Nat → List Nat
  | 0 => []
  | n + 1 => n :: downFrom n

/-- Index of the last occurrence of pattern p as a substring of s,
scanning candidate start positions from the end. -/
def findLastOcc (p s : Str) : Option Nat :=
  (downFrom (s.length + 1)).find? (fun i => p.isPrefixOf (s.drop i))

/-- Python str.rpartition: split s at the last occurrence of sep into
(head, sep, tail); if sep does not occur, return two empty parts and s
as the third part. -/
def rpartitionL (sep s : Str) : Str × Str × Str :=
  match findLastOcc sep s with
  | none => ([], [], s)
  | some i => (s.take i, sep, s.drop (i + sep.length))

/-- Index of the first occurrence of pattern p as a substring of s. -/
def findFirstOcc (p s : Str) : Option Nat :=
  (List.range (s.length + 1)).find? (fun i => p.isPrefixOf (s.drop i))

/-- Python str.partition: split s at the first occurrence of sep into
(head, sep, tail); if sep does not occur, return s and two empty parts. -/
def partitionL (sep s : Str) : Str × Str × Str :=
  match findFirstOcc sep s with
  | none => (s, [], [])
  | some i => (s.take i, sep, s.drop (i + sep.length))

/-- Python substring containment, the expression p in s. -/
def containsSub (p s : Str) : Bool :=
  (List.range (s.length + 1)).any (fun i => p.isPrefixOf (s.drop i))

/-- Python str.isalpha restricted to ASCII: non-empty and all letters. -/
def isalphaL (s : Str) : Bool :=
  !s.isEmpty && s.all Char.isAlpha

/-- Python str.isdigit restricted to ASCII: non-empty and all digits. -/
def isdigitL (s : Str) : Bool :=
  !s.isEmpty && s.all Char.isDigit

/-- Python str.startswith for a single pattern. -/
def startswithL (p s : Str) : Bool := p.isPrefixOf s

/-- Python str.endswith for a single pattern. -/
def endswithL (p s : Str) : Bool := p.isSuffixOf s

/-- Python str.lower restricted to ASCII. -/
def lowerL (s : Str) : Str := s.map Char.toLower

/-- Python str.strip(c) for one strip character: remove leading and
trailing occurrences of c. -/
def stripCharL (c : Char) (s : Str) : Str :=
  ((s.dropWhile (· = c)).reverse.dropWhile (· = c)).reverse

/-- Python str.rstrip(c) for one strip character. -/
def rstripCharL (c : Char) (s : Str) : Str :=
  (s.reverse.dropWhile (· = c)).reverse

/-- Python str.replace for single characters. -/
def replaceCharL (a b : Char) (s : Str) : Str :=
  s.map (fun c => if c = a then b else c)

/-- Python str.split(sep) for a one-character separator. -/
def splitCharL (c : Char) (s : Str) : List Str :=
  s.splitOn c

/-- The tail of s after the last occurrence of c, or all of s when c
does not occur: Python os.path.basename for plain slash paths. -/
def afterLastChar (c : Char) (s : Str) : Str :=
  match findLastOcc [c] s with
  | none => s
  | some i => s.drop (i + 1)

/-- Value of an ASCII hex digit. -/
def hexVal (c : Char) : Option Nat :=
  if '0' ≤ c ∧ c ≤ '9' then some (c.toNat - '0'.toNat)
  else if 'a' ≤ c ∧ c ≤ 'f' then some (c.toNat - 'a'.toNat + 10)
  else if 'A' ≤ c ∧ c ≤ 'F' then some (c.toNat - 'A'.toNat + 10)
  else none

/-- Model of urllib.parse.unquote for ASCII percent-escapes: decode each
valid three-character escape such as the sequence percent-2-B into its
character, leaving invalid escapes unchanged.  Multi-byte UTF-8 escapes
are outside the modeled fragment. -/
def unquoteL : Str → Str
  | [] => []
  | '%' :: a :: b :: rest =>
    match hexVal a, hexVal b with
    | some ha, some hb => Char.ofNat (ha * 16 + hb) :: unquoteL rest
    | _, _ => '%' :: unquoteL (a :: b :: rest)
  | c :: rest => c :: unquoteL rest

end PyStr

open PyStr

/-! ## Sdist and wheel filename parsing (utils_pypi.py) -/

/-- utils_pypi.EXTENSIONS_SDIST. -/
def EXTENSIONS_SDIST : List Str := [str ".tar.gz", str ".zip", str ".tar.xz"]

/-- utils_pypi.get_sdist_name_ver_ext: return (name, version, extension)
when filename is a valid sdist name, and none otherwise.  The guards
reject embedded platform or architecture tokens and non-PEP440 version
shapes, in the exact order of the source. -/
def get_sdist_name_ver_ext (filename : Str) : Option (Str × Str × Str) :=
  match EXTENSIONS_SDIST.find? (fun ext => endswithL ext filename) with
  | none => none
  | some ext =>
    let p := rpartitionL ext filename
    let name_ver := p.1
    let extension := p.2.1
    if extension.isEmpty || name_ver.isEmpty then none
    else
      let q := rpartitionL (str "-") name_ver
      let name := q.1
      let version := q.2.2
      if name.isEmpty || version.isEmpty then none
      else if containsSub (str "x86_64") version || containsSub (str "i386") version then none
      else if isalphaL version then none
      else if containsSub (str "-") version then none
      else if isdigitL version && version.length = 1 then none
      else if version.length = 2 && (version.take 1 = ['r']) &&
          (match version with
           | _ :: c :: _ => c.isDigit
           | _ => false) then none
      else if !containsSub (str ".") version && version.length < 3 then none
      else if endswithL (str "dev") name && !containsSub (str ".") version then none
      else if [str "beta", str "rc", str "pre", str "post", str "final"].any
          (fun p => startswithL p version) then none
      else some (name, version, extension)

/-- utils_pypi.get_filename: strip slashes, take the basename and
unquote percent-escapes. -/
def get_filename (filename : Str) : Str :=
  unquoteL (afterLastChar '/' (stripCharL '/' filename))

/-- An Sdist as parsed from a filename: the fields of the Sdist attrs
class that from_filename sets (type is the constant pypi). -/
structure SdistModel where
  name : Str
  version : Str
  extension : Str
  filename : Str
deriving DecidableEq, Repr

/-- Sdist.from_filename: build an Sdist from a filename or fail. -/
def Sdist.from_filename (filename : Str) : Option SdistModel :=
  let filename := get_filename filename
  match get_sdist_name_ver_ext filename with
  | none => none
  | some (name, version, extension) =>
    some { name := name, version := version, extension := extension, filename := filename }

/-- Sdist.to_filename: the name, a hyphen, the version, a dot and the
extension field (which itself already carries its leading dot). -/
def Sdist.to_filename (s : SdistModel) : Str :=
  s.name ++ str "-" ++ s.version ++ str "." ++ s.extension

/-- True when a string contains no newline: the regex dot of the wheel
filename pattern matches any character except a newline. -/
def noNl (s : Str) : Bool := s.all (fun c => c ≠ '\n')

/-- Groups captured by Wheel.get_wheel_from_filename, the anchored
regular expression
name .+? hyphen ver .*? (hyphen build digit-nondash-run)? hyphen
pyvers .+? hyphen abis .+? hyphen plats .+? dot whl
with all of name, ver, build, pyvers, abis, plats captured. -/
structure WheelGroups where
  name : Str
  ver : Str
  build : Option Str
  pyvers : Str
  abis : Str
  plats : Str
deriving DecidableEq, Repr

/-- Backtracking for the tail of the wheel pattern: plats is the
shortest non-empty run followed by the literal .whl ending the string. -/
def tryPlats (rest : Str) : Option Str :=
  (List.range' 1 rest.length).findSome? fun k =>
    if rest.drop k = str ".whl" && noNl (rest.take k) then some (rest.take k) else none

/-- Backtracking for abis: shortest non-empty run followed by a hyphen
after which the plats tail matches; on inner failure the run extends
past the hyphen, as the regex engine does. -/
def tryAbis (rest : Str) : Option (Str × Str) :=
  (List.range' 1 rest.length).findSome? fun k =>
    if rest.get? k = some '-' && noNl (rest.take k) then
      match tryPlats (rest.drop (k + 1)) with
      | some plats => some (rest.take k, plats)
      | none => none
    else none

/-- Backtracking for pyvers: shortest non-empty run followed by a hyphen
after which abis and plats match. -/
def tryPyvers (rest : Str) : Option (Str × Str × Str) :=
  (List.range' 1 rest.length).findSome? fun k =>
    if rest.get? k = some '-' && noNl (rest.take k) then
      match tryAbis (rest.drop (k + 1)) with
      | some (ab, pl) => some (rest.take k, ab, pl)
      | none => none
    else none

/-- The part of the wheel pattern after the ver group: an optional
hyphen-build group (build is a digit followed by the shortest run of
non-hyphen characters, so it extends exactly to the next hyphen), tried
before the group is skipped, then a literal hyphen and the
pyvers-abis-plats tail. -/
def tryAfterVer (rest : Str) : Option (Option Str × Str × Str × Str) :=
  let buildBranch : Option (Option Str × Str × Str × Str) :=
    match rest with
    | '-' :: d :: tail =>
      if d.isDigit then
        match tail.findIdx? (fun c => c = '-') with
        | some j =>
          match tryPyvers (tail.drop (j + 1)) with
          | some (py, ab, pl) => some (some (d :: tail.take j), py, ab, pl)
          | none => none
        | none => none
      else none
    | _ => none
  match buildBranch with
  | some r => some r
  | none =>
    match rest with
    | '-' :: rest2 =>
      match tryPyvers rest2 with
      | some (py, ab, pl) => some (none, py, ab, pl)
      | none => none
    | _ => none

/-- Wheel.get_wheel_from_filename: leftmost backtracking match of the
anchored wheel filename pattern.  The outer searches run over the name
run (shortest first, each candidate ending right before a hyphen) and
the ver run (shortest first, possibly empty, possibly spanning
hyphens). -/
def get_wheel_from_filename (s : Str) : Option WheelGroups :=
  (List.range' 1 s.length).findSome? fun n1 =>
    if s.get? n1 = some '-' && noNl (s.take n1) then
      (List.range (s.length + 1)).findSome? fun n2 =>
        if n1 + 1 + n2 ≤ s.length && noNl ((s.drop (n1 + 1)).take n2) then
          match tryAfterVer (s.drop (n1 + 1 + n2)) with
          | some (b, py, ab, pl) =>
            some ⟨s.take n1, (s.drop (n1 + 1)).take n2, b, py, ab, pl⟩
          | none => none
        else none
    else none

/-- A Wheel as parsed from a filename: the fields the source sets in
Wheel.from_filename.  The tags field of the source is the cross product
of the three tag lists and is kept as the derived function wheelTags. -/
structure WheelModel where
  name : Str
  version : Str
  build : Option Str
  python_versions : List Str
  abis : List Str
  platforms : List Str
  filename : Str
deriving DecidableEq, Repr

/-- The tag cross product python_versions x abis x platforms that the
source stores in the tags set field. -/
def wheelTags (w : WheelModel) : List (Str × Str × Str) :=
  w.python_versions.flatMap (fun x =>
    w.abis.flatMap (fun y => w.platforms.map (fun z => (x, y, z))))

/-- Wheel.from_filename: parse the filename with the wheel pattern,
mapping underscores of the name and the version to hyphens and
splitting each tag group on dots. -/
def Wheel.from_filename (filename : Str) : Option WheelModel :=
  let filename := get_filename filename
  match get_wheel_from_filename filename with
  | none => none
  | some g =>
    some { name := replaceCharL '_' '-' g.name,
           version := replaceCharL '_' '-' g.ver,
           build := g.build,
           python_versions := splitCharL '.' g.pyvers,
           abis := splitCharL '.' g.abis,
           platforms := splitCharL '.' g.plats,
           filename := filename }

/-- Python str.join with a dot separator. -/
def joinDot (parts : List Str) : Str := List.intercalate (str ".") parts

/-- Wheel.to_filename: reassemble the filename from the fields; the
build part is included only when build is non-empty. -/
def Wheel.to_filename (w : WheelModel) : Str :=
  let build := match w.build with
    | some b => if b.isEmpty then [] else str "-" ++ b
    | none => []
  w.name ++ str "-" ++ w.version ++ build ++ str "-" ++ joinDot w.python_versions
    ++ str "-" ++ joinDot w.abis ++ str "-" ++ joinDot w.platforms ++ str ".whl"

/-! ## Model of the packvers library (fork of pypa/packaging 21.3)

The source manipulates versions, specifiers, requirements and markers
through the third-party packvers library.  The following definitions
model the fragment of that library the source exercises: PEP 440
version parsing and total ordering (with the LegacyVersion fallback),
specifier sets with the pre-release gate, and environment markers.
Wildcard (dot-star) specifiers, the compatible-release and triple-equal
operators, and legacy specifiers are outside the modeled fragment. -/

/-- A segment of a PEP 440 local version label: numeric segments compare
above alphanumeric ones. -/
inductive LocalSeg where
  | num (n : Nat)
  | alpha (s : Str)
deriving DecidableEq, Repr

/-- A parsed PEP 440 version (packvers.version.Version internals). -/
structure PyVersion where
  epoch : Nat
  release : List Nat
  pre : Option (Str × Nat)
  post : Option Nat
  dev : Option Nat
  localSegs : Option (List LocalSeg)
deriving DecidableEq, Repr

/-- packaging Version.is_prerelease: a dev or pre segment is present. -/
def PyVersion.is_prerelease (v : PyVersion) : Bool :=
  v.dev.isSome || v.pre.isSome

/-- packaging Version.is_postrelease. -/
def PyVersion.is_postrelease (v : PyVersion) : Bool :=
  v.post.isSome

/-- packaging Version.public: the version without its local segment. -/
def PyVersion.public (v : PyVersion) : PyVersion :=
  { v with localSegs := none }

namespace VersionCmp

/-- Lexicographic comparison of lists from an element comparison; a
strict prefix compares below, as Python tuple comparison does. -/
def cmpList (cmp : α → α → Ordering) : List α → List α → Ordering
  | [], [] => .eq
  | [], _ :: _ => .lt
  | _ :: _, [] => .gt
  | a :: as, b :: bs =>
    match cmp a b with
    | .eq => cmpList cmp as bs
    | o => o

/-- Python string comparison: code-point lexicographic. -/
def cmpStr (a b : Str) : Ordering :=
  cmpList (fun x y => compare x.toNat y.toNat) a b

/-- Release tuple with trailing zeros removed, as packaging _cmpkey pads
for comparison. -/
def trimRelease (r : List Nat) : List Nat :=
  (r.reverse.dropWhile (fun n => n = 0)).reverse

/-- The pre-release component of the comparison key, with the infinity
sentinels of packaging _cmpkey. -/
inductive PreKey where
  | negInf
  | val (letter : Str) (n : Nat)
  | inf
deriving DecidableEq, Repr

/-- packaging _cmpkey pre component: a bare dev release sorts below any
pre segment, and the absence of pre, post and dev sorts above. -/
def preKey (v : PyVersion) : PreKey :=
  match v.pre, v.post, v.dev with
  | none, none, some _ => .negInf
  | none, _, _ => .inf
  | some (l, n), _, _ => .val l n

def cmpPreKey : PreKey → PreKey → Ordering
  | .negInf, .negInf => .eq
  | .negInf, _ => .lt
  | _, .negInf => .gt
  | .inf, .inf => .eq
  | .inf, _ => .gt
  | _, .inf => .lt
  | .val l1 n1, .val l2 n2 => (cmpStr l1 l2).then (compare n1 n2)

/-- packaging _cmpkey post component: absence sorts below any value. -/
def cmpPost : Option Nat → Option Nat → Ordering
  | none, none => .eq
  | none, some _ => .lt
  | some _, none => .gt
  | some a, some b => compare a b

/-- packaging _cmpkey dev component: absence sorts above any value. -/
def cmpDev : Option Nat → Option Nat → Ordering
  | none, none => .eq
  | none, some _ => .gt
  | some _, none => .lt
  | some a, some b => compare a b

/-- packaging _cmpkey local segment comparison: numeric segments sort
above alphanumeric ones; like segments compare by value. -/
def cmpLocalSeg : LocalSeg → LocalSeg → Ordering
  | .num a, .num b => compare a b
  | .num _, .alpha _ => .gt
  | .alpha _, .num _ => .lt
  | .alpha a, .alpha b => cmpStr a b

/-- packaging _cmpkey local component: absence sorts below presence. -/
def cmpLocal : Option (List LocalSeg) → Option (List LocalSeg) → Ordering
  | none, none => .eq
  | none, some _ => .lt
  | some _, none => .gt
  | some a, some b => cmpList cmpLocalSeg a b

end VersionCmp

open VersionCmp

/-- Total comparison of two PEP 440 versions, the packaging _cmpkey
order: epoch, then trimmed release, then pre, post, dev and local. -/
def vcmpPep (a b : PyVersion) : Ordering :=
  (compare a.epoch b.epoch).then
    ((cmpList compare (trimRelease a.release) (trimRelease b.release)).then
      ((cmpPreKey (preKey a) (preKey b)).then
        ((cmpPost a.post b.post).then
          ((cmpDev a.dev b.dev).then
            (cmpLocal a.localSegs b.localSegs)))))

/-- Base-version equality: equal epoch and trimmed release, the
comparison of Version(x.base_version) values in the specifier
operators. -/
def baseEq (a b : PyVersion) : Bool :=
  a.epoch = b.epoch && trimRelease a.release = trimRelease b.release

namespace Pep440Parse

/-- Python regex whitespace accepted around a version. -/
def isWs (c : Char) : Bool :=
  c = ' ' || c = '\t' || c = '\n' || c = '\r' || c = Char.ofNat 11 || c = Char.ofNat 12

/-- Numeric value of a digit run. -/
def digitsToNat (ds : Str) : Nat :=
  ds.foldl (fun acc c => acc * 10 + (c.toNat - '0'.toNat)) 0

/-- Parse a leading digit run. -/
def parseNum (s : Str) : Option (Nat × Str) :=
  let ds := s.takeWhile Char.isDigit
  if ds.isEmpty then none else some (digitsToNat ds, s.dropWhile Char.isDigit)

/-- A version-segment separator: hyphen, underscore or dot. -/
def isSep (c : Char) : Bool := c = '-' || c = '_' || c = '.'

/-- Consume one optional separator. -/
def skipSep (s : Str) : Str :=
  match s with
  | c :: t => if isSep c then t else s
  | [] => s

/-- Longest alternative of the list that prefixes s; the lists below are
ordered longest first, which reproduces the backtracking choice of the
version regex for these alternative sets. -/
def matchAlt (alts : List Str) (s : Str) : Option (Str × Str) :=
  match alts.find? (fun a => a.isPrefixOf s) with
  | some a => some (a, s.drop a.length)
  | none => none

def preLetters : List Str :=
  [str "preview", str "alpha", str "beta", str "pre", str "rc", str "a", str "b", str "c"]

def postLetters : List Str := [str "post", str "rev", str "r"]

/-- packaging _parse_letter_version normalization of pre letters. -/
def normalizePreLetter (l : Str) : Str :=
  if l = str "alpha" then str "a"
  else if l = str "beta" then str "b"
  else if l = str "c" || l = str "pre" || l = str "preview" then str "rc"
  else l

/-- The pre group: optional separator, letter, optional separator,
optional number (defaulting to zero). -/
def parsePre (s : Str) : Option ((Str × Nat) × Str) :=
  match matchAlt preLetters (skipSep s) with
  | none => none
  | some (l, rest) =>
    let rest1 := skipSep rest
    match parseNum rest1 with
    | some (n, rest2) => some ((normalizePreLetter l, n), rest2)
    | none => some ((normalizePreLetter l, 0), rest1)

/-- The second post alternative: optional separator, post letter,
optional separator, optional number. -/
def parsePostLetter (s : Str) : Option (Nat × Str) :=
  match matchAlt postLetters (skipSep s) with
  | none => none
  | some (_, rest) =>
    let rest1 := skipSep rest
    match parseNum rest1 with
    | some (n, rest2) => some (n, rest2)
    | none => some (0, rest1)

/-- The post group: either a hyphen directly followed by a number (the
implicit post release), or the lettered form. -/
def parsePost (s : Str) : Option (Nat × Str) :=
  match s with
  | '-' :: t =>
    match parseNum t with
    | some (n, rest) => some (n, rest)
    | none => parsePostLetter s
  | _ => parsePostLetter s

/-- The dev group: optional separator, the letters dev, optional
separator, optional number. -/
def parseDev (s : Str) : Option (Nat × Str) :=
  let s1 := skipSep s
  if (str "dev").isPrefixOf s1 then
    let rest1 := skipSep (s1.drop 3)
    match parseNum rest1 with
    | some (n, rest2) => some (n, rest2)
    | none => some (0, rest1)
  else none

/-- A lowercase alphanumeric character, the alphabet of local labels. -/
def isAlnumLower (c : Char) : Bool := c.isDigit || ('a' ≤ c && c ≤ 'z')

/-- One local segment: numeric runs become numbers. -/
def segOf (run : Str) : LocalSeg :=
  if isdigitL run then .num (digitsToNat run) else .alpha run

/-- Further local segments: separator followed by an alphanumeric run,
repeated; stops before a separator with no run after it. -/
def parseLocalRest (fuel : Nat) (acc : List LocalSeg) (s : Str) : List LocalSeg × Str :=
  match fuel with
  | 0 => (acc.reverse, s)
  | fuel + 1 =>
    match s with
    | c :: t =>
      if isSep c then
        let run := t.takeWhile isAlnumLower
        if run.isEmpty then (acc.reverse, s)
        else parseLocalRest fuel (segOf run :: acc) (t.dropWhile isAlnumLower)
      else (acc.reverse, s)
    | [] => (acc.reverse, [])

/-- Release tail: dot followed by a digit run, repeated. -/
def parseReleaseRest (fuel : Nat) (acc : List Nat) (s : Str) : List Nat × Str :=
  match fuel with
  | 0 => (acc.reverse, s)
  | fuel + 1 =>
    match s with
    | '.' :: t =>
      match parseNum t with
      | some (n, rest) => parseReleaseRest fuel (n :: acc) rest
      | none => (acc.reverse, s)
    | _ => (acc.reverse, s)

/-- Parse a string as a PEP 440 version, the anchored version regex of
packaging 21.3 with its normalizations; none when the string does not
match, in which case the library falls back to a LegacyVersion. -/
def parseVersionCore (input : Str) : Option PyVersion :=
  let s := lowerL (((input.dropWhile isWs).reverse.dropWhile isWs).reverse)
  let s := match s with
    | 'v' :: t => t
    | _ => s
  let es :=
    match parseNum s with
    | some (n, '!' :: t) => (n, t)
    | _ => ((0 : Nat), s)
  let epoch := es.1
  match parseNum es.2 with
  | none => none
  | some (r0, s1) =>
    let rs := parseReleaseRest s1.length [r0] s1
    let release := rs.1
    let ps :=
      match parsePre rs.2 with
      | some (p, rest) => (some p, rest)
      | none => (none, rs.2)
    let qs :=
      match parsePost ps.2 with
      | some (n, rest) => (some n, rest)
      | none => (none, ps.2)
    let ds :=
      match parseDev qs.2 with
      | some (n, rest) => (some n, rest)
      | none => (none, qs.2)
    match ds.2 with
    | [] =>
      some { epoch := epoch, release := release, pre := ps.1, post := qs.1,
             dev := ds.1, localSegs := none }
    | '+' :: t =>
      let run := t.takeWhile isAlnumLower
      if run.isEmpty then none
      else
        let lr := parseLocalRest t.length [segOf run] (t.dropWhile isAlnumLower)
        match lr.2 with
        | [] =>
          some { epoch := epoch, release := release, pre := ps.1, post := qs.1,
                 dev := ds.1, localSegs := some lr.1 }
        | _ => none
    | _ => none

end Pep440Parse

/-- A version as returned by packvers parse: a PEP 440 version or the
legacy fallback carrying the raw string. -/
inductive ParsedVersion where
  | pep440 (v : PyVersion)
  | legacy (s : Str)
deriving DecidableEq, Repr

/-- packvers.version.parse: PEP 440 when the string conforms, otherwise
a LegacyVersion. -/
def parse_version (s : Str) : ParsedVersion :=
  match Pep440Parse.parseVersionCore s with
  | some v => .pep440 v
  | none => .legacy s

/-- is_prerelease on a parsed version: LegacyVersion is never a
pre-release. -/
def ParsedVersion.is_prerelease : ParsedVersion → Bool
  | .pep440 v => v.is_prerelease
  | .legacy _ => false

namespace LegacyCmp

/-- Tokens of the legacy comparison key: digit runs, letter runs, dots,
hyphens and runs of any other characters, in order of appearance. -/
def tokenize (fuel : Nat) (s : Str) : List Str :=
  match fuel with
  | 0 => []
  | fuel + 1 =>
    match s with
    | [] => []
    | c :: t =>
      if c.isDigit then
        (c :: t.takeWhile Char.isDigit) :: tokenize fuel (t.dropWhile Char.isDigit)
      else if 'a' ≤ c ∧ c ≤ 'z' then
        (c :: t.takeWhile (fun d => 'a' ≤ d && d ≤ 'z')) ::
          tokenize fuel (t.dropWhile (fun d => 'a' ≤ d && d ≤ 'z'))
      else if c = '.' ∨ c = '-' then
        [c] :: tokenize fuel t
      else
        let other := fun d => !d.isDigit && !('a' ≤ d && d ≤ 'z') && d ≠ '.' && d ≠ '-'
        (c :: t.takeWhile other) :: tokenize fuel (t.dropWhile other)

/-- packaging _legacy_version_replacement_map. -/
def replaceTok (p : Str) : Str :=
  if p = str "pre" then str "c"
  else if p = str "preview" then str "c"
  else if p = str "-" then str "final-"
  else if p = str "rc" then str "c"
  else if p = str "dev" then str "@"
  else p

/-- Pad a digit run to eight characters. -/
def zfill8 (p : Str) : Str :=
  if p.length < 8 then List.replicate (8 - p.length) '0' ++ p else p

/-- packaging _parse_version_parts: map tokens, drop dots, zero-pad
numbers, star-prefix the rest and add the final sentinel. -/
def versionParts (s : Str) : List Str :=
  ((tokenize s.length (lowerL s)).map replaceTok).filterMap (fun p =>
    if p.isEmpty || p = str "." then none
    else if (p.headD ' ').isDigit then some (zfill8 p)
    else some ('*' :: p)) ++ [str "*final"]

/-- packaging _legacy_cmpkey stack pass; the accumulator head is the
most recent part. -/
def keyLoop : List Str → List Str → List Str
  | acc, [] => acc.reverse
  | acc, p :: rest =>
    if (str "*").isPrefixOf p then
      let acc1 := if VersionCmp.cmpStr p (str "*final") = .lt then
          acc.dropWhile (fun q => q = str "*final-")
        else acc
      let acc2 := acc1.dropWhile (fun q => q = str "00000000")
      keyLoop (p :: acc2) rest
    else keyLoop (p :: acc) rest

/-- The comparison key of a LegacyVersion. -/
def legacyKey (s : Str) : List Str := keyLoop [] (versionParts s)

end LegacyCmp

/-- Total comparison of parsed versions: every LegacyVersion sorts below
every PEP 440 version (its key carries epoch minus one). -/
def vcmp : ParsedVersion → ParsedVersion → Ordering
  | .legacy a, .legacy b =>
    VersionCmp.cmpList VersionCmp.cmpStr (LegacyCmp.legacyKey a) (LegacyCmp.legacyKey b)
  | .legacy _, .pep440 _ => .lt
  | .pep440 _, .legacy _ => .gt
  | .pep440 a, .pep440 b => vcmpPep a b

/-- Version equality as the library defines it: equal comparison keys. -/
def veq (a b : ParsedVersion) : Bool := vcmp a b = .eq

/-- Specifier operators modeled: the comparison operators the source
exercises.  Wildcard equality, compatible release and triple equality
are outside the modeled fragment. -/
inductive SpecOp where
  | eq
  | ne
  | le
  | ge
  | lt
  | gt
deriving DecidableEq, Repr

/-- One parsed specifier clause (packvers.specifiers.Specifier): an
operator and its parsed PEP 440 version. -/
structure SpecifierM where
  op : SpecOp
  version : PyVersion
deriving DecidableEq, Repr

/-- Specifier.prereleases of packaging 21.3: true when the operator is
one of double-equal, at-least, at-most (compatible release and triple
equality are not modeled) and the clause version is a pre-release. -/
def SpecifierM.prereleases (s : SpecifierM) : Bool :=
  match s.op with
  | .eq | .ge | .le => s.version.is_prerelease
  | _ => false

/-- The operator comparisons of packaging 21.3 Specifier.  A legacy
prospective version fails every clause (the require-version-compare
guard).  At-least and at-most compare the public version of the
prospective; strict comparisons carry the extra base-version
exclusions of the source library. -/
def SpecifierM.opEval (s : SpecifierM) : ParsedVersion → Bool
  | .legacy _ => false
  | .pep440 p =>
    match s.op with
    | .le => (vcmpPep p.public s.version).isLE
    | .ge => (vcmpPep p.public s.version).isGE
    | .lt =>
      if !(vcmpPep p s.version = .lt) then false
      else if !s.version.is_prerelease && p.is_prerelease && baseEq p s.version then false
      else true
    | .gt =>
      if !(vcmpPep p s.version = .gt) then false
      else if !s.version.is_postrelease && p.is_postrelease && baseEq p s.version then false
      else if p.localSegs.isSome && baseEq p s.version then false
      else true
    | .eq =>
      if s.version.localSegs.isNone then vcmpPep p.public s.version = .eq
      else vcmpPep p s.version = .eq
    | .ne =>
      if s.version.localSegs.isNone then !(vcmpPep p.public s.version = .eq)
      else !(vcmpPep p s.version = .eq)

/-- One clause with the pre-release gate of Specifier.contains under a
given prereleases flag. -/
def SpecifierM.containsWith (s : SpecifierM) (prereleases : Bool) (v : ParsedVersion) : Bool :=
  if v.is_prerelease && !prereleases then false
  else s.opEval v

/-- SpecifierSet membership of packaging 21.3 (the expression v in
specifier with no explicit prereleases argument): pre-releases are
rejected unless some clause mentions a pre-release, in particular the
empty set rejects every pre-release and accepts everything else; then
every clause must hold. -/
def setContains (specs : List SpecifierM) (v : ParsedVersion) : Bool :=
  let prereleases := specs.any SpecifierM.prereleases
  if v.is_prerelease && !prereleases then false
  else specs.all (fun s => s.containsWith prereleases v)

/-- Comparison operators of PEP 508 markers. -/
inductive MarkerOp where
  | ceq
  | cne
  | clt
  | cle
  | cgt
  | cge
  | cin
  | cnin
deriving DecidableEq, Repr

/-- A PEP 508 marker expression over environment variables compared to
literals (packvers.markers.Marker).  The modeled fragment covers the
variable-operator-literal comparisons and conjunction and disjunction,
the forms the dependency metadata of the source exercises. -/
inductive MarkerExpr where
  | mAnd (a b : MarkerExpr)
  | mOr (a b : MarkerExpr)
  | mCmp (varName : Str) (op : MarkerOp) (value : Str)
deriving DecidableEq, Repr

/-- The marker evaluation context: a finite map from variable names to
string values. -/
abbrev MarkerEnv := List (Str × Str)

/-- The specifier operator corresponding to a marker operator, when the
library would accept the operator in a specifier. -/
def specOpOfMarkerOp : MarkerOp → Option SpecOp
  | .ceq => some .eq
  | .cne => some .ne
  | .clt => some .lt
  | .cle => some .le
  | .cgt => some .gt
  | .cge => some .ge
  | _ => none

/-- packaging _eval_op: first try to interpret the right side as a
version specifier and test membership of the left side; when the
specifier is invalid, fall back to plain string comparison, with
substring tests for the containment operators. -/
def evalMarkerOp (lhs : Str) (op : MarkerOp) (rhs : Str) : Bool :=
  match specOpOfMarkerOp op, Pep440Parse.parseVersionCore rhs with
  | some sop, some rv => setContains [{ op := sop, version := rv }] (parse_version lhs)
  | _, _ =>
    match op with
    | .ceq => lhs = rhs
    | .cne => lhs ≠ rhs
    | .clt => VersionCmp.cmpStr lhs rhs = .lt
    | .cle => !(VersionCmp.cmpStr lhs rhs = .gt)
    | .cgt => VersionCmp.cmpStr lhs rhs = .gt
    | .cge => !(VersionCmp.cmpStr lhs rhs = .lt)
    | .cin => containsSub lhs rhs
    | .cnin => !containsSub lhs rhs

/-- Marker.evaluate against a context.  The source passes a context
holding the four keys python version, platform system, sys platform and
extra; variables outside the context resolve to interpreter defaults in
the library, which is outside the modeled fragment and mapped to the
empty string. -/
def MarkerExpr.evaluate : MarkerExpr → MarkerEnv → Bool
  | .mAnd a b, env => a.evaluate env && b.evaluate env
  | .mOr a b, env => a.evaluate env || b.evaluate env
  | .mCmp varName op value, env =>
    let lhs := ((env.find? (fun kv => kv.1 = varName)).map Prod.snd).getD []
    evalMarkerOp lhs op value

/-- A parsed PEP 508 requirement (packvers.requirements.Requirement):
name, extras, specifier set and optional marker. -/
structure RequirementM where
  name : Str
  extras : List Str
  specifier : List SpecifierM
  marker : Option MarkerExpr
deriving DecidableEq, Repr

/-! ## Provider embedding (resolution.py)

The resolver-facing provider.  Network and cache effects of the source
(fetching version lists from the simple indexes or the JSON API, and
dependency lists from downloaded wheels or sdists) are modeled by the
two provider maps: versions_by_package gives the version strings
collected for a name, dependencies_by_purl gives the requirement list
extracted for a pinned package url. -/

/-- The version slot of a Candidate: the resolver stores parsed
versions, while the synthetic candidate of the ignore-errors path
stores the plain string 0.0.0. -/
inductive VersionVal where
  | parsed (v : ParsedVersion)
  | ofStr (s : Str)
deriving DecidableEq, Repr

/-- The extras slot of a Candidate: a set of extras normally, and the
plain empty string on the synthetic candidate. -/
inductive ExtrasVal where
  | ofSet (l : List Str)
  | ofStr (s : Str)
deriving DecidableEq, Repr

/-- Python truthiness of the extras slot. -/
def ExtrasVal.nonEmpty : ExtrasVal → Bool
  | .ofSet l => !l.isEmpty
  | .ofStr s => !s.isEmpty

/-- utils.Candidate. -/
structure CandidateM where
  name : Str
  version : VersionVal
  extras : ExtrasVal
deriving DecidableEq, Repr

/-- utils_pypi.Environment, the two fields the resolution code reads. -/
structure EnvironmentM where
  python_version : Str
  operating_system : Str
deriving DecidableEq, Repr

/-- resolution.get_python_version_from_env_tag: insert a dot after the
first character, turning 310 into 3.10. -/
def get_python_version_from_env_tag (python_version : Str) : Str :=
  match python_version with
  | [] => ['.']
  | c :: rest => c :: '.' :: rest

/-- Python str.capitalize restricted to ASCII. -/
def capitalizeL : Str → Str
  | [] => []
  | c :: t => c.toUpper :: lowerL t

/-- resolution.get_environment_marker_from_environment: the four-key
marker context built from the environment. -/
def get_environment_marker_from_environment (environment : EnvironmentM) : MarkerEnv :=
  [(str "extra", []),
   (str "python_version", get_python_version_from_env_tag environment.python_version),
   (str "platform_system", capitalizeL environment.operating_system),
   (str "sys_platform", environment.operating_system)]

/-- packvers.utils.canonicalize_name run collapse: every run of
hyphens, underscores and dots becomes one hyphen (fuel is the string
length, consumed at least one character per step). -/
def collapseSepsF : Nat → Str → Str
  | 0, _ => []
  | _, [] => []
  | fuel + 1, c :: t =>
    if Pep440Parse.isSep c then '-' :: collapseSepsF fuel (t.dropWhile Pep440Parse.isSep)
    else c :: collapseSepsF fuel t

/-- packvers.utils.canonicalize_name: collapse separator runs to one
hyphen and lowercase. -/
def canonicalize_name (s : Str) : Str := lowerL (collapseSepsF s.length s)

/-- resolution.remove_extras: the identifier up to the first opening
bracket. -/
def remove_extras (identifier : Str) : Str :=
  (partitionL (str "[") identifier).1

/-- resolution.is_valid_version membership of the parsed version in the
bad-versions list: version equality is comparison-key equality, and a
parsed version never equals the plain string version of the synthetic
candidate. -/
def memBadVersions (v : ParsedVersion) (bad : List VersionVal) : Bool :=
  bad.any (fun b =>
    match b with
    | .parsed w => veq v w
    | .ofStr _ => false)

/-- resolution.is_valid_version: reject versions in the bad list; then
reject versions failing some requirement clause set unless every
requirement of the identifier has an empty specifier. -/
def is_valid_version (parsed_version : ParsedVersion)
    (requirements : Str → List RequirementM) (identifier : Str)
    (bad_versions : List VersionVal) : Bool :=
  if memBadVersions parsed_version bad_versions then false
  else if (requirements identifier).any
      (fun r => !setContains r.specifier parsed_version) then
    if (requirements identifier).all (fun r => r.specifier.isEmpty) then true
    else false
  else true

/-- PythonInputProvider.get_candidates: parse every collected version
string, keep the valid ones, drop pre-releases unless every surviving
version is a pre-release, and wrap the survivors as candidates. -/
def get_candidates (all_versions : List Str)
    (requirements : Str → List RequirementM) (identifier : Str)
    (bad_versions : List VersionVal) (name : Str) (extras : ExtrasVal) :
    List CandidateM :=
  let valid_versions := (all_versions.map parse_version).filter
    (fun pv => is_valid_version pv requirements identifier bad_versions)
  let valid_versions :=
    if !valid_versions.all (fun v => v.is_prerelease) then
      valid_versions.filter (fun v => !v.is_prerelease)
    else valid_versions
  valid_versions.map (fun v => { name := name, version := .parsed v, extras := extras })

/-- PythonInputProvider with its effect-free state: the two maps model
the memo caches filled by the repository and JSON API fetches. -/
structure PythonInputProvider where
  environment : EnvironmentM
  versions_by_package : Str → List Str
  dependencies_by_purl : Str → List RequirementM
  analyze_setup_py_insecurely : Bool
  ignore_errors : Bool

/-- The stored environment_marker field computed at provider
construction. -/
def PythonInputProvider.environment_marker (p : PythonInputProvider) : MarkerEnv :=
  get_environment_marker_from_environment p.environment

/-- The error of the provider match enumeration. -/
inductive ProviderError where
  | NoVersionsFound (msg : Str)
deriving DecidableEq, Repr

/-- Render a natural number in decimal. -/
def natToStr (n : Nat) : Str := (Nat.repr n).data

/-- packaging Version string rendering (the normalized form). -/
def renderVersion (v : PyVersion) : Str :=
  (if v.epoch ≠ 0 then natToStr v.epoch ++ str "!" else [])
  ++ List.intercalate (str ".") (v.release.map natToStr)
  ++ (match v.pre with
      | some (l, n) => l ++ natToStr n
      | none => [])
  ++ (match v.post with
      | some n => str ".post" ++ natToStr n
      | none => [])
  ++ (match v.dev with
      | some n => str ".dev" ++ natToStr n
      | none => [])
  ++ (match v.localSegs with
      | some segs => str "+" ++ List.intercalate (str ".")
          (segs.map (fun sg =>
            match sg with
            | .num n => natToStr n
            | .alpha s => s))
      | none => [])

/-- Python str of a candidate version: LegacyVersion prints its raw
string. -/
def renderVersionVal : VersionVal → Str
  | .parsed (.pep440 v) => renderVersion v
  | .parsed (.legacy s) => s
  | .ofStr s => s

/-- Python str of the PackageURL the provider builds for a candidate:
the pypi purl of the canonical name at the rendered version. -/
def purlStr (name version : Str) : Str :=
  str "pkg:pypi/" ++ name ++ str "@" ++ version

/-- _iter_matches extras union: the set of extras over all requirements
of the identifier, in first-occurrence order. -/
def extrasUnion (reqs : List RequirementM) : List Str :=
  (reqs.flatMap (fun r => r.extras)).eraseDups

/-- PythonInputProvider._iter_matches: empty collected version lists
raise NoVersionsFound, or yield the single synthetic candidate when
ignore_errors is set; otherwise generate candidates. -/
def iter_matches (p : PythonInputProvider) (identifier : Str)
    (requirements : Str → List RequirementM)
    (incompatibilities : Str → List CandidateM) :
    Except ProviderError (List CandidateM) :=
  let name := remove_extras identifier
  let bad_versions := (incompatibilities identifier).map (fun c => c.version)
  let extras := extrasUnion (requirements identifier)
  let versions := p.versions_by_package name
  if versions.isEmpty then
    if p.ignore_errors then
      .ok [{ name := str "NonExistant", version := .ofStr (str "0.0.0"), extras := .ofStr [] }]
    else
      .error (.NoVersionsFound (str "This package does not exist: " ++ name))
  else
    .ok (get_candidates versions requirements identifier bad_versions name (.ofSet extras))

/-- Comparison of candidate version slots for sorting.  The source
compares parsed versions; a comparison involving the plain-string slot
of the synthetic candidate would raise in Python and is unreachable
because that candidate is only ever produced alone. -/
def cmpVersionVal : VersionVal → VersionVal → Ordering
  | .parsed a, .parsed b => vcmp a b
  | .ofStr a, .ofStr b => VersionCmp.cmpStr a b
  | .ofStr _, .parsed _ => .lt
  | .parsed _, .ofStr _ => .gt

/-- Stable insertion for descending order: an element moves ahead only
of strictly smaller versions, so equal versions keep their original
order, as Python sorted with reverse does. -/
def insertDesc (c : CandidateM) : List CandidateM → List CandidateM
  | [] => [c]
  | d :: ds =>
    if cmpVersionVal c.version d.version = .gt then c :: d :: ds
    else d :: insertDesc c ds

/-- Python sorted by the version attribute with reverse set: stable
descending order. -/
def sortByVersionDesc (l : List CandidateM) : List CandidateM :=
  l.foldl (fun acc c => insertDesc c acc) []

/-- PythonInputProvider.find_matches: the matches of _iter_matches
sorted newest first. -/
def find_matches (p : PythonInputProvider) (identifier : Str)
    (requirements : Str → List RequirementM)
    (incompatibilities : Str → List CandidateM) :
    Except ProviderError (List CandidateM) :=
  match iter_matches p identifier requirements incompatibilities with
  | .error e => .error e
  | .ok cs => .ok (sortByVersionDesc cs)

/-- PythonInputProvider.is_satisfied_by: candidate version in the
requirement specifier, or an empty specifier. -/
def is_satisfied_by (requirement : RequirementM) (candidate : CandidateM) : Bool :=
  let vOk := match candidate.version with
    | .parsed v => setContains requirement.specifier v
    | .ofStr s => setContains requirement.specifier (parse_version s)
  if vOk then true
  else if requirement.specifier.isEmpty then true
  else false

/-- The synthetic self-dependency requirement the provider yields for a
candidate carrying extras: the parse of name, double-equals, rendered
version.  A legacy rendered version would produce a specifier outside
the modeled fragment and is mapped to an empty clause list. -/
def selfDepRequirement (name : Str) (version : VersionVal) : RequirementM :=
  { name := name, extras := [],
    specifier :=
      match Pep440Parse.parseVersionCore (renderVersionVal version) with
      | some v => [{ op := .eq, version := v }]
      | none => [],
    marker := none }

/-- PythonInputProvider._iter_dependencies: one synthetic
name-double-equals-version self-dependency when the candidate has
extras, then the cached requirement list of the purl filtered by marker
evaluation against the environment marker context. -/
def iter_dependencies (p : PythonInputProvider) (candidate : CandidateM) :
    List RequirementM :=
  let name := canonicalize_name candidate.name
  let selfDeps :=
    if candidate.extras.nonEmpty then
      [selfDepRequirement name candidate.version]
    else []
  let purl := purlStr name (renderVersionVal candidate.version)
  selfDeps ++ (p.dependencies_by_purl purl).filter
    (fun r =>
      match r.marker with
      | none => true
      | some m => m.evaluate p.environment_marker)

/-- PythonInputProvider.get_dependencies. -/
def get_dependencies (p : PythonInputProvider) (candidate : CandidateM) :
    List RequirementM :=
  iter_dependencies p candidate

/-! ## Simple-index link fetching (utils_pypi.py)

Model of CPython urllib.parse urlparse and urlunparse for the fragment
resolve_relative_url exercises: scheme and netloc recognition, fragment
and query splitting, and parameter splitting on the last path
segment. -/

/-- The six components of a parsed URL. -/
structure UrlParts where
  scheme : Str
  netloc : Str
  path : Str
  params : Str
  query : Str
  fragment : Str
deriving DecidableEq, Repr

namespace UrlParse

/-- A character allowed in a URL scheme. -/
def isSchemeChar (c : Char) : Bool :=
  c.isAlpha || c.isDigit || c = '+' || c = '-' || c = '.'

/-- Split off the scheme at the first colon when everything before it is
made of scheme characters. -/
def splitScheme (url : Str) : Str × Str :=
  match findFirstOcc [':'] url with
  | some i =>
    if 0 < i && (url.take i).all isSchemeChar then
      (lowerL (url.take i), url.drop (i + 1))
    else ([], url)
  | none => ([], url)

/-- Split off the network location after a double slash, up to the next
slash, question mark or hash. -/
def splitNetloc (url : Str) : Str × Str :=
  match url with
  | '/' :: '/' :: rest =>
    let netloc := rest.takeWhile (fun c => c ≠ '/' && c ≠ '?' && c ≠ '#')
    (netloc, rest.drop netloc.length)
  | _ => ([], url)

/-- Split at the first occurrence of a character: (before, after), or
the whole string and nothing when absent. -/
def splitOnce (c : Char) (s : Str) : Str × Str :=
  match findFirstOcc [c] s with
  | some i => (s.take i, s.drop (i + 1))
  | none => (s, [])

/-- CPython _splitparams: split parameters at the first semicolon of the
last path segment. -/
def splitParams (url : Str) : Str × Str :=
  if containsSub (str "/") url then
    let start := match findLastOcc ['/'] url with
      | some i => i
      | none => 0
    match findFirstOcc [';'] (url.drop start) with
    | some j => (url.take (start + j), url.drop (start + j + 1))
    | none => (url, [])
  else splitOnce ';' url

/-- CPython urlparse specialized to schemes that use parameters (the
empty scheme and http and https, the only schemes reachable here). -/
def urlparseL (url : Str) : UrlParts :=
  let sr := splitScheme url
  let nr := splitNetloc sr.2
  let fr := if containsSub (str "#") nr.2 then splitOnce '#' nr.2 else (nr.2, [])
  let qr := if containsSub (str "?") fr.1 then splitOnce '?' fr.1 else (fr.1, [])
  let pr := if containsSub (str ";") qr.1 then splitParams qr.1 else (qr.1, [])
  { scheme := sr.1, netloc := nr.1, path := pr.1,
    params := pr.2, query := qr.2, fragment := fr.2 }

/-- CPython urlunsplit. -/
def urlunsplitL (scheme netloc url query fragment : Str) : Str :=
  let url :=
    if !netloc.isEmpty || ((!url.isEmpty) && url.take 2 = str "//") then
      let url := if (!url.isEmpty) && url.take 1 ≠ str "/" then '/' :: url else url
      str "//" ++ netloc ++ url
    else url
  let url := if !scheme.isEmpty then scheme ++ str ":" ++ url else url
  let url := if !query.isEmpty then url ++ str "?" ++ query else url
  if !fragment.isEmpty then url ++ str "#" ++ fragment else url

/-- CPython urlunparse. -/
def urlunparseL (p : UrlParts) : Str :=
  let url := if !p.params.isEmpty then p.path ++ str ";" ++ p.params else p.path
  urlunsplitL p.scheme p.netloc url p.query p.fragment

end UrlParse

/-- Python str.rsplit(c, 1) first component: the part before the last
occurrence, or the whole string when absent. -/
def rsplitBeforeLastChar (c : Char) (s : Str) : Str :=
  match findLastOcc [c] s with
  | none => s
  | some i => s.take i

/-- utils_pypi.resolve_relative_url: absolute http or https URLs pass
through; otherwise a relative path starting with two dots replaces the
last segment of the base path, and any other relative reference
replaces the whole base path. -/
def resolve_relative_url (package_url url : Str) : Str :=
  if startswithL (str "http://") url || startswithL (str "https://") url then url
  else
    let base_url_parts := UrlParse.urlparseL package_url
    let url_parts := UrlParse.urlparseL url
    let path :=
      if startswithL (str "..") url_parts.path then
        rsplitBeforeLastChar '/' (rstripCharL '/' base_url_parts.path) ++ url_parts.path.drop 2
      else
        UrlParse.urlunparseL
          { scheme := [], netloc := [], path := url_parts.path,
            params := url_parts.params, query := url_parts.query,
            fragment := url_parts.fragment }
    UrlParse.urlunparseL { base_url_parts with path := path }

/-- An anchor tag of a fetched simple-index page: its href attribute and
its optional data-requires-python attribute. -/
structure AnchorTag where
  href : Str
  data_requires_python : Option Str
deriving DecidableEq, Repr

/-- utils_pypi.Link: the URL and the optional requires-python of one
anchor.  The named tuple has no checksum field. -/
structure LinkM where
  url : Str
  python_requires : Option Str
deriving DecidableEq, Repr

/-- PypiSimpleRepository.fetch_links on a fetched package page, modeled
over the anchor tags the HTML parser would produce: each anchor yields
one Link whose URL is the href cut at the first sha256 fragment marker
and resolved against the package page URL; the cut-off sha256 digest is
discarded. -/
def fetch_links (index_url normalized_name : Str) (anchors : List AnchorTag) : List LinkM :=
  let package_url := index_url ++ str "/" ++ normalized_name
  anchors.map (fun anchor_tag =>
    let url := (partitionL (str "#sha256=") anchor_tag.href).1
    let python_requires := anchor_tag.data_requires_python
    { url := resolve_relative_url package_url url, python_requires := python_requires })

/-! ## Remote fetch retry policy (utils_pypi.get_remote_file_content)

The fetch is modeled by the statuses function giving the HTTP status of
each successive request.  The result records the sequence of delays
slept (the source sleeps the delay argument on entry before issuing the
request) and either success or the status carried by the raised
RemoteNotFetchedException. -/

/-- One run of get_remote_file_content: sleep the entry delay, issue the
request; on a non-200 status retry on 429 while the entry delay is
below twenty seconds with the delay doubled (starting at one), and
raise otherwise.  The fuel bounds the recursion; eight levels are never
exhausted because the delay reaches twenty within six doublings. -/
def get_remote_file_content_go (statuses : Nat → Nat) :
    Nat → Nat → Nat → List Nat × Except Nat Unit
  | 0, _, _ => ([], .error 0)
  | fuel + 1, k, delay =>
    let status := statuses k
    if status ≠ 200 then
      if status = 429 && delay < 20 then
        let increased_delay := if delay * 2 = 0 then 1 else delay * 2
        let r := get_remote_file_content_go statuses fuel (k + 1) increased_delay
        (delay :: r.1, r.2)
      else ([delay], .error status)
    else ([delay], .ok ())

/-- utils_pypi.get_remote_file_content called with the default zero
delay: the list of slept delays and the outcome. -/
def get_remote_file_content (statuses : Nat → Nat) : List Nat × Except Nat Unit :=
  get_remote_file_content_go statuses 8 0 0

/-! ## Orchestrator embedding (api.py)

resolve_dependencies is modeled up to its collaborator boundaries: the
requirements-file and specifier parsers (the packagedcode library,
outside this repository) and the setup-py extractors enter as
pre-parsed records, and the resolvelib engine and the package-data
fetch enter as an opaque engine outcome.  The model records the
side-effecting stages (repository construction, running the resolver,
fetching package data) as an effect trace so the claims about what
happens before them are expressible. -/

/-- utils_pypi.PYTHON_DOT_VERSIONS_BY_VER. -/
def PYTHON_DOT_VERSIONS_BY_VER : List (Str × Str) :=
  [(str "27", str "2.7"), (str "36", str "3.6"), (str "37", str "3.7"),
   (str "38", str "3.8"), (str "39", str "3.9"), (str "310", str "3.10"),
   (str "311", str "3.11"), (str "312", str "3.12"), (str "313", str "3.13")]

/-- utils_pypi.valid_python_versions: the plain keys followed by the
dotted forms. -/
def valid_python_versions : List Str :=
  PYTHON_DOT_VERSIONS_BY_VER.map Prod.fst
    ++ PYTHON_DOT_VERSIONS_BY_VER.map Prod.snd

/-- utils_pypi.PLATFORMS_BY_OS. -/
def PLATFORMS_BY_OS : List (Str × List Str) :=
  [(str "linux",
    [str "linux_x86_64", str "manylinux1_x86_64", str "manylinux2010_x86_64",
     str "manylinux2014_x86_64", str "manylinux2014_aarch6",
     str "musllinux_1_2_x86_64", str "manylinux_2_33_aarch64"]),
   (str "macos",
    [str "macosx_10_6_intel", str "macosx_10_6_x86_64", str "macosx_10_9_intel",
     str "macosx_10_9_x86_64", str "macosx_10_10_intel", str "macosx_10_10_x86_64",
     str "macosx_10_11_intel", str "macosx_10_11_x86_64", str "macosx_10_12_intel",
     str "macosx_10_12_x86_64", str "macosx_10_13_intel", str "macosx_10_13_x86_64",
     str "macosx_10_14_intel", str "macosx_10_14_x86_64", str "macosx_10_15_intel",
     str "macosx_10_15_x86_64", str "macosx_11_0_x86_64", str "macosx_11_intel",
     str "macosx_11_0_x86_64", str "macosx_11_intel", str "macosx_10_9_universal2",
     str "macosx_10_10_universal2", str "macosx_10_11_universal2",
     str "macosx_10_12_universal2", str "macosx_10_13_universal2",
     str "macosx_10_14_universal2", str "macosx_10_15_universal2",
     str "macosx_11_0_universal2"]),
   (str "windows", [str "win_amd64"])]

/-- utils_pypi.valid_python_version: a missing or empty requires-python
accepts every interpreter; otherwise the dotted version must be in the
specifier set. -/
def valid_python_version (python_version : Str)
    (python_requires : Option (List SpecifierM)) : Bool :=
  match python_requires with
  | none => true
  | some specs => setContains specs (parse_version python_version)

/-- A DependentPackage record as produced by the parser collaborators:
the fields the orchestrator reads while merging. -/
structure DependentPackageM where
  purl : Str
  extracted_requirement : Str
  scope : Str
deriving DecidableEq, Repr

/-- The extra-data record of one parsed requirements file. -/
structure ExtraDataM where
  extra_index_urls : List Str
  index_url : Option Str
deriving DecidableEq, Repr

/-- api.get_index_urls: append the extra index URLs and the index URL of
one extra-data record and deduplicate preserving order. -/
def get_index_urls (index_urls : List Str) (extra_data : ExtraDataM) : List Str :=
  let index_urls := index_urls ++ extra_data.extra_index_urls
  let index_urls := match extra_data.index_url with
    | some u => index_urls ++ [u]
    | none => index_urls
  index_urls.eraseDups

/-- One parsed requirements file: the dependency records, the extra-data
records and the opaque per-file package data emitted into the files
list. -/
structure ReqFileParse where
  path : Str
  deps : List DependentPackageM
  extra_data : List ExtraDataM
  package_data : List Str
deriving DecidableEq, Repr

/-- The parsed setup-py file: its declared dependencies, its parsed
requires-python, and the collaborator results of the insecure live
evaluation and of the manifest fallback. -/
structure SetupPyParse where
  path : Str
  dependencies : List DependentPackageM
  python_requires : Option (List SpecifierM)
  insecure_reqs : List DependentPackageM
  manifest_reqs : List DependentPackageM
  package_data : List Str
deriving DecidableEq, Repr

/-- One entry of the files list of the Resolution. -/
structure FileEntry where
  path : Str
  package_data : List Str
deriving DecidableEq, Repr

/-- The outcome of the downstream pipeline (resolvelib engine and
package-data fetch), an external boundary of the model. -/
structure EngineOutcome where
  resolution : List Str
  purls : List Str
  package_datas : List Str
deriving DecidableEq, Repr

/-- The api.Resolution named tuple. -/
structure ResolutionT where
  resolution : List Str
  packages : List Str
  files : List FileEntry
deriving DecidableEq, Repr

/-- The errors resolve_dependencies raises before resolution starts.
The two no-value errors are plain exceptions in the source; the two
invalid-value errors are ValueError instances naming the value. -/
inductive ApiError where
  | noOperatingSystem
  | invalidOperatingSystem (os : Str)
  | noPythonVersion
  | invalidPythonVersion (py : Str)
  | missingNetrc (path : Str)
  | setupPyIncompatible
deriving DecidableEq, Repr

/-- The side-effecting stages of resolve_dependencies that the claims
mention, recorded as a trace. -/
inductive ApiEffect where
  | constructRepo (index_url : Str)
  | runResolver
  | fetchPackageData (purl : Str)
deriving DecidableEq, Repr

/-- The direct dependencies the setup-py branch contributes: the
insecure live evaluation result when enabled, otherwise the declared
install-scope dependencies, with the manifest fallback when the file
declares none. -/
def setupPyDirectDeps (analyze_setup_py_insecurely : Bool) (s : SetupPyParse) :
    List DependentPackageM :=
  if analyze_setup_py_insecurely then s.insecure_reqs
  else
    s.dependencies.filter (fun d => d.scope = str "install")
      ++ (if s.dependencies.isEmpty then s.manifest_reqs else [])

/-- api.resolve_dependencies modeled to its collaborator boundaries: the
validation prefix, the netrc check, the merge of direct dependencies
from requirement files, specifiers and the setup-py file, the
empty-merge early return, and otherwise the effect trace of repository
construction, resolution and package-data fetch with the engine outcome
passed through.  A none netrc_file covers the absence of both an
explicit and a home netrc file. -/
def resolve_dependencies
    (operating_system python_version : Str)
    (netrc_file : Option (Str × Bool))
    (requirement_files : List ReqFileParse)
    (specifiers : List DependentPackageM)
    (setup_py_file : Option SetupPyParse)
    (index_urls : List Str)
    (use_pypi_json_api : Bool)
    (use_only_configured : Bool)
    (configured_index_urls : List Str)
    (analyze_setup_py_insecurely : Bool)
    (engine : EngineOutcome) :
    Except ApiError (ResolutionT × List ApiEffect) :=
  if operating_system.isEmpty then .error .noOperatingSystem
  else if !(PLATFORMS_BY_OS.any (fun kv => kv.1 = operating_system)) then
    .error (.invalidOperatingSystem operating_system)
  else if python_version.isEmpty then .error .noPythonVersion
  else if !valid_python_versions.contains python_version then
    .error (.invalidPythonVersion python_version)
  else
    match netrc_file with
    | some (path, false) => .error (.missingNetrc path)
    | _ =>
      let deps1 := requirement_files.flatMap (fun f => f.deps)
      let index_urls := requirement_files.foldl
        (fun urls f => f.extra_data.foldl get_index_urls urls) index_urls
      let files1 := requirement_files.map
        (fun f => { path := f.path, package_data := f.package_data : FileEntry })
      let deps2 := specifiers
      match setup_py_file with
      | some s =>
        if !valid_python_version (get_python_version_from_env_tag python_version)
            s.python_requires then
          .error .setupPyIncompatible
        else
          resolveRest (deps1 ++ deps2 ++ setupPyDirectDeps analyze_setup_py_insecurely s)
            (files1 ++ [{ path := s.path, package_data := s.package_data }])
            index_urls use_pypi_json_api use_only_configured configured_index_urls engine
      | none =>
        resolveRest (deps1 ++ deps2) files1
          index_urls use_pypi_json_api use_only_configured configured_index_urls engine
where
  /-- The tail of resolve_dependencies after the direct dependencies are
  merged: the empty-merge early return, and otherwise repository
  construction per deduplicated stripped index URL, the resolver run and
  the package-data fetches. -/
  resolveRest (direct_dependencies : List DependentPackageM) (files : List FileEntry)
      (index_urls : List Str) (use_pypi_json_api use_only_configured : Bool)
      (configured_index_urls : List Str) (engine : EngineOutcome) :
      Except ApiError (ResolutionT × List ApiEffect) :=
    if direct_dependencies.isEmpty then
      .ok ({ resolution := [], packages := [], files := files }, [])
    else
      let urls :=
        if use_pypi_json_api then []
        else
          (((index_urls.map (stripCharL '/')).filter
            (fun u => !use_only_configured || configured_index_urls.contains u)).eraseDups)
      .ok ({ resolution := engine.resolution, packages := engine.package_datas,
             files := files },
           urls.map ApiEffect.constructRepo ++ [ApiEffect.runResolver]
             ++ engine.purls.map ApiEffect.fetchPackageData)

/-! ## Concrete instances used by the claim theorems and witnesses -/

-- Equality of provider results is decidable for the concrete
-- witnesses below.
deriving instance DecidableEq for Except

/-- The PEP 440 parse of a literal, with an inert zero fallback that no
instance below reaches (every use parses successfully, as the theorems
check by evaluation). -/
def pvOf (s : String) : PyVersion :=
  match Pep440Parse.parseVersionCore s.data with
  | some v => v
  | none => { epoch := 0, release := [0], pre := none, post := none,
              dev := none, localSegs := none }

/-- The requirements map of the C1 counterexample: one requirement with
an empty specifier and one requiring at least 1.0a1. -/
def c1Requirements : Str → List RequirementM := fun identifier =>
  if identifier = str "foo" then
    [{ name := str "foo", extras := [], specifier := [], marker := none },
     { name := str "foo", extras := [],
       specifier := [{ op := .ge, version := pvOf "1.0a1" }], marker := none }]
  else []

/-- A provider whose collected version lists are all empty and that
ignores errors. -/
def emptyVersionsProvider : PythonInputProvider :=
  { environment := { python_version := str "310", operating_system := str "linux" },
    versions_by_package := fun _ => [],
    dependencies_by_purl := fun _ => [],
    analyze_setup_py_insecurely := false,
    ignore_errors := true }

/-- The same provider with ignore_errors off. -/
def emptyVersionsProviderStrict : PythonInputProvider :=
  { emptyVersionsProvider with ignore_errors := false }

/-- The synthetic candidate of the ignore-errors path as the source
spells it. -/
def nonExistantCandidate : CandidateM :=
  { name := str "NonExistant", version := .ofStr (str "0.0.0"), extras := .ofStr [] }

/-- A dependency without marker. -/
def depPlain : RequirementM :=
  { name := str "idna", extras := [], specifier := [], marker := none }

/-- A dependency guarded by a windows marker. -/
def depWin : RequirementM :=
  { name := str "colorama", extras := [],
    specifier := [],
    marker := some (.mCmp (str "sys_platform") .ceq (str "win32")) }

/-- The provider of the C4 instances: a linux environment and a cached
dependency list for foo at 1.0 holding one plain and one
windows-guarded requirement. -/
def c4Provider : PythonInputProvider :=
  { environment := { python_version := str "310", operating_system := str "linux" },
    versions_by_package := fun _ => [],
    dependencies_by_purl := fun purl =>
      if purl = purlStr (str "foo") (str "1.0") then [depPlain, depWin] else [],
    analyze_setup_py_insecurely := false,
    ignore_errors := false }

/-- A candidate for foo 1.0 carrying two extras. -/
def c4Candidate : CandidateM :=
  { name := str "foo", version := .parsed (parse_version (str "1.0")),
    extras := .ofSet [str "a", str "b"] }

/-- The sdist parsed from the first accepted filename of the boundary
table. -/
def sdistIntbitset : SdistModel :=
  { name := str "intbitset", version := str "1.3", extension := str ".tar.gz",
    filename := str "intbitset-1.3.tar.gz" }

/-- The wheel parsed from a filename whose name carries an underscore. -/
def wheelAboutcode : WheelModel :=
  { name := str "aboutcode-toolkit", version := str "5.1.0", build := none,
    python_versions := [str "py2", str "py3"], abis := [str "none"],
    platforms := [str "any"],
    filename := str "aboutcode_toolkit-5.1.0-py2.py3-none-any.whl" }

/-- An engine outcome with nothing in it, for the orchestrator
instances. -/
def trivialEngine : EngineOutcome :=
  { resolution := [], purls := [], package_datas := [] }

/-- A candidate for foo 1.0 without extras. -/
def c4CandidateNoExtras : CandidateM :=
  { name := str "foo", version := .parsed (parse_version (str "1.0")),
    extras := .ofSet [] }

/-- The delay sequence the retry loop can sleep from a given entry
delay: the entry delay, then while below twenty the doubled successor
chain. -/
def boundedDelays : Nat → Nat → List Nat
  | 0, _ => []
  | fuel + 1, d =>
    if d < 20 then d :: boundedDelays fuel (if d * 2 = 0 then 1 else d * 2) else [d]

/-! ## Claim theorems -/

/-- Claim C1, counterexample: at the pre-release version 1.0a1, with one
empty-specifier requirement and one requirement at least 1.0a1 and no
bad versions, is_valid_version returns false although the version is
not a bad version and every requirement is satisfied or has an empty
specifier, contradicting the claim as stated. -/
theorem c1_claim_counterexample :
    is_valid_version (parse_version (str "1.0a1")) c1Requirements (str "foo") [] = false
    ∧ memBadVersions (parse_version (str "1.0a1")) [] = false
    ∧ (c1Requirements (str "foo")).all
        (fun r => r.specifier.isEmpty
          || setContains r.specifier (parse_version (str "1.0a1"))) = true := by
  decide

/-- Claim C1, amended: is_valid_version returns false when the version
is a member of bad_versions, and otherwise returns true if and only if
either the version is a member of every requirement specifier set of
the identifier (under the library membership, whose pre-release gate
makes an empty set reject pre-releases), or every requirement of the
identifier has an empty specifier set. -/
theorem c1_is_valid_version_characterization (v : ParsedVersion)
    (requirements : Str → List RequirementM) (identifier : Str)
    (bad_versions : List VersionVal) :
    is_valid_version v requirements identifier bad_versions =
      (!memBadVersions v bad_versions
        && ((requirements identifier).all (fun r => setContains r.specifier v)
          || (requirements identifier).all (fun r => r.specifier.isEmpty))) := by
  unfold is_valid_version
  cases hb : memBadVersions v bad_versions <;>
    simp only [hb, if_true, if_false, Bool.not_true, Bool.not_false,
      Bool.false_and, Bool.true_and]
  · rw [show (requirements identifier).any (fun r => !setContains r.specifier v)
        = !(requirements identifier).all (fun r => setContains r.specifier v) by
      simp [List.all_eq_not_any_not]]
    cases hc : (requirements identifier).all (fun r => setContains r.specifier v) <;>
      cases he : (requirements identifier).all (fun r => r.specifier.isEmpty) <;> simp

/-- Claim C2: candidate generation keeps pre-release versions only when
every surviving version (those passing is_valid_version) is a
pre-release; when at least one surviving version is not a pre-release,
the pre-releases are removed and the candidates are exactly the
non-pre-release survivors in order. -/
theorem c2_prerelease_filter (all_versions : List Str)
    (requirements : Str → List RequirementM) (identifier : Str)
    (bad_versions : List VersionVal) (name : Str) (extras : ExtrasVal) :
    ((∃ v ∈ (all_versions.map parse_version).filter
        (fun pv => is_valid_version pv requirements identifier bad_versions),
        v.is_prerelease = false) →
      get_candidates all_versions requirements identifier bad_versions name extras
        = (((all_versions.map parse_version).filter
            (fun pv => is_valid_version pv requirements identifier bad_versions)).filter
              (fun v => !v.is_prerelease)).map
            (fun v => { name := name, version := .parsed v, extras := extras }))
    ∧ ((∀ v ∈ (all_versions.map parse_version).filter
        (fun pv => is_valid_version pv requirements identifier bad_versions),
        v.is_prerelease = true) →
      get_candidates all_versions requirements identifier bad_versions name extras
        = ((all_versions.map parse_version).filter
            (fun pv => is_valid_version pv requirements identifier bad_versions)).map
            (fun v => { name := name, version := .parsed v, extras := extras })) := by
  constructor <;> intro h <;> unfold get_candidates
  · have hall : ((all_versions.map parse_version).filter
        (fun pv => is_valid_version pv requirements identifier bad_versions)).all
        (fun v => v.is_prerelease) = false := by
      obtain ⟨v, hv, hpre⟩ := h
      rw [Bool.eq_false_iff]
      intro hcontra
      rw [List.all_eq_true] at hcontra
      exact absurd (hcontra v hv) (by simp [hpre])
    simp [hall]
  · have hall : ((all_versions.map parse_version).filter
        (fun pv => is_valid_version pv requirements identifier bad_versions)).all
        (fun v => v.is_prerelease) = true := by
      rw [List.all_eq_true]
      exact h
    simp [hall]

/-- Claim C2, witness: a mixed list keeps only the final release, an
all-pre-release list is kept whole. -/
theorem c2_prerelease_filter_witness :
    get_candidates [str "1.0", str "1.0a1"] (fun _ => []) (str "x") [] (str "x") (.ofSet [])
      = [{ name := str "x", version := .parsed (parse_version (str "1.0")),
           extras := .ofSet [] }]
    ∧ get_candidates [str "1.0a1", str "2.0b2"] (fun _ => []) (str "x") [] (str "x")
        (.ofSet [])
      = [{ name := str "x", version := .parsed (parse_version (str "1.0a1")),
           extras := .ofSet [] },
         { name := str "x", version := .parsed (parse_version (str "2.0b2")),
           extras := .ofSet [] }] :=
  ⟨((c2_prerelease_filter [str "1.0", str "1.0a1"] (fun _ => []) (str "x") [] (str "x")
      (.ofSet [])).1 (by decide)).trans (by decide),
   ((c2_prerelease_filter [str "1.0a1", str "2.0b2"] (fun _ => []) (str "x") [] (str "x")
      (.ofSet [])).2 (by decide)).trans (by decide)⟩

/-- Claim C3, counterexample: the synthetic candidate of the
ignore-errors path is named NonExistant, not NonExistent as the claim
states. -/
theorem c3_claim_counterexample :
    find_matches emptyVersionsProvider (str "pkg") (fun _ => []) (fun _ => [])
      = .ok [nonExistantCandidate]
    ∧ nonExistantCandidate.name ≠ str "NonExistent" :=
  ⟨by decide, by decide⟩

/-- Claim C3, amended: when the collected version list of an identifier
is empty, find_matches yields exactly one synthetic candidate named
NonExistant at the plain string version 0.0.0 when ignore_errors is on,
and raises NoVersionsFound naming the package otherwise. -/
theorem c3_empty_versions_behavior (p : PythonInputProvider) (identifier : Str)
    (requirements : Str → List RequirementM) (incompatibilities : Str → List CandidateM)
    (h : (p.versions_by_package (remove_extras identifier)).isEmpty = true) :
    (p.ignore_errors = true →
      find_matches p identifier requirements incompatibilities = .ok [nonExistantCandidate])
    ∧ (p.ignore_errors = false →
      find_matches p identifier requirements incompatibilities
        = .error (.NoVersionsFound (str "This package does not exist: "
            ++ remove_extras identifier))) := by
  unfold find_matches iter_matches
  constructor <;> intro hig <;>
    simp [h, hig, sortByVersionDesc, insertDesc, nonExistantCandidate]

/-- Claim C3, witness: the two branches at a concrete provider. -/
theorem c3_empty_versions_behavior_witness :
    find_matches emptyVersionsProvider (str "pkg") (fun _ => []) (fun _ => [])
      = .ok [nonExistantCandidate]
    ∧ find_matches emptyVersionsProviderStrict (str "pkg") (fun _ => []) (fun _ => [])
      = .error (.NoVersionsFound (str "This package does not exist: pkg")) :=
  ⟨(c3_empty_versions_behavior emptyVersionsProvider (str "pkg") (fun _ => [])
      (fun _ => []) (by decide)).1 (by decide),
   ((c3_empty_versions_behavior emptyVersionsProviderStrict (str "pkg") (fun _ => [])
      (fun _ => []) (by decide)).2 (by decide)).trans (by decide)⟩

/-- Claim C4, counterexample: a candidate with two extras receives one
synthetic self-dependency, not one per extra; the marker-filtered
dependency follows it. -/
theorem c4_claim_counterexample :
    get_dependencies c4Provider c4Candidate
      = [selfDepRequirement (str "foo") c4Candidate.version, depPlain]
    ∧ [str "a", str "b"].length = 2 :=
  ⟨by decide, by decide⟩

/-- Claim C4, amended: get_dependencies yields one synthetic
name-double-equals-version self-dependency when the candidate has at
least one extra (none otherwise), followed by exactly the cached
requirements of the purl whose marker is absent or evaluates to true
against the environment marker context; for a candidate without extras
a cached requirement is yielded precisely when its marker is absent or
evaluates to true. -/
theorem c4_dependencies_shape (p : PythonInputProvider) (c : CandidateM) :
    get_dependencies p c
      = (if c.extras.nonEmpty then
          [selfDepRequirement (canonicalize_name c.name) c.version] else [])
        ++ (p.dependencies_by_purl
            (purlStr (canonicalize_name c.name) (renderVersionVal c.version))).filter
          (fun r => match r.marker with
            | none => true
            | some m => m.evaluate p.environment_marker)
    ∧ (c.extras.nonEmpty = false →
        ∀ r ∈ p.dependencies_by_purl
            (purlStr (canonicalize_name c.name) (renderVersionVal c.version)),
          (r ∈ get_dependencies p c
            ↔ (r.marker = none
               ∨ ∃ m, r.marker = some m ∧ m.evaluate p.environment_marker = true))) := by
  constructor
  · rfl
  · intro hne r hr
    simp only [get_dependencies, iter_dependencies, hne, Bool.false_eq_true, if_false,
      List.nil_append, List.mem_filter, hr, true_and]
    cases hm : r.marker with
    | none => simp
    | some m => simp [hm]

/-- Claim C4, witness: the shapes at the concrete provider, with and
without extras, and a discharged membership instance. -/
theorem c4_dependencies_shape_witness :
    get_dependencies c4Provider c4Candidate
      = [selfDepRequirement (str "foo") c4Candidate.version, depPlain]
    ∧ get_dependencies c4Provider c4CandidateNoExtras = [depPlain]
    ∧ depPlain ∈ get_dependencies c4Provider c4CandidateNoExtras :=
  ⟨(c4_dependencies_shape c4Provider c4Candidate).1.trans (by decide),
   (c4_dependencies_shape c4Provider c4CandidateNoExtras).1.trans (by decide),
   ((c4_dependencies_shape c4Provider c4CandidateNoExtras).2 (by decide) depPlain
      (by decide)).mpr (Or.inl (by decide))⟩

/-- Claim C5, counterexample: two anchors differing only in their sha256
digest produce equal links, so the stripped digest is not retained with
the link; the produced link holds only the resolved URL and the
requires-python value. -/
theorem c5_claim_counterexample :
    fetch_links (str "https://example.com/simple") (str "foo")
      [{ href := str "foo-1.0.tar.gz#sha256=aaaa", data_requires_python := none }]
    = fetch_links (str "https://example.com/simple") (str "foo")
      [{ href := str "foo-1.0.tar.gz#sha256=bbbb", data_requires_python := none }]
    ∧ fetch_links (str "https://example.com/simple") (str "foo")
      [{ href := str "foo-1.0.tar.gz#sha256=aaaa", data_requires_python := none }]
    = [{ url := str "https://example.com/foo-1.0.tar.gz", python_requires := none }] :=
  ⟨by decide, by decide⟩

/-- Claim C5, amended: each anchor yields one Link whose URL is the href
cut at the first sha256 fragment marker and resolved against the
package page URL (absolute http and https hrefs pass through unchanged,
and a path starting with two dots replaces the last segment of the base
path, as on the concrete instance); the cut-off digest is discarded. -/
theorem c5_fetch_links_resolution (index_url normalized_name : Str)
    (anchors : List AnchorTag) (u p : Str) :
    fetch_links index_url normalized_name anchors
      = anchors.map (fun a =>
          { url := resolve_relative_url (index_url ++ str "/" ++ normalized_name)
              (partitionL (str "#sha256=") a.href).1,
            python_requires := a.data_requires_python })
    ∧ ((startswithL (str "http://") u || startswithL (str "https://") u) = true →
        resolve_relative_url p u = u)
    ∧ resolve_relative_url (str "https://example.com/package") (str "../path/file.txt")
      = str "https://example.com/path/file.txt" := by
  refine ⟨rfl, ?_, by decide⟩
  intro h
  unfold resolve_relative_url
  simp [h]

/-- Claim C5, witness: an absolute URL passes through unchanged. -/
theorem c5_fetch_links_resolution_witness :
    resolve_relative_url (str "https://example.com/simple/pkg")
      (str "https://files.example/a.whl") = str "https://files.example/a.whl" :=
  (c5_fetch_links_resolution [] [] [] (str "https://files.example/a.whl")
    (str "https://example.com/simple/pkg")).2.1 (by decide)

/-- Claim C6, counterexample: under persistent 429 responses the slept
delays are 0, 1, 2, 4, 8, 16 and then 32 seconds before the final raise:
the 32 second sleep exceeds the twenty second bound the claim states. -/
theorem c6_claim_counterexample :
    get_remote_file_content (fun _ => 429) = ([0, 1, 2, 4, 8, 16, 32], .error 429)
    ∧ (32 : Nat) ∈ (get_remote_file_content (fun _ => 429)).1
    ∧ ¬((32 : Nat) ≤ 20) :=
  ⟨by decide, by decide, by decide⟩

/-- Helper for claim C6: the slept delays of the retry loop form a
prefix of the doubling chain bounded by the under-twenty guard. -/
theorem go_delays_prefix (statuses : Nat → Nat) (fuel k d : Nat) :
    (get_remote_file_content_go statuses fuel k d).1 <+: boundedDelays fuel d := by
  induction fuel generalizing k d with
  | zero => simp [get_remote_file_content_go, boundedDelays]
  | succ fuel ih =>
    have hstart : [d] <+: boundedDelays (fuel + 1) d := by
      by_cases hd : d < 20 <;> simp [boundedDelays, hd]
    by_cases h200 : statuses k = 200
    · have hne : (statuses k ≠ 200) = False := by simp [h200]
      simp only [get_remote_file_content_go, hne, if_false]
      exact hstart
    · have hne : (statuses k ≠ 200) = True := by simp [h200]
      by_cases hretry : statuses k = 429 ∧ d < 20
      · have hcond : (decide (statuses k = 429) && decide (d < 20)) = true := by
          simp [hretry.1, hretry.2]
        simp only [get_remote_file_content_go, hne, if_true, hcond, if_pos]
        rw [boundedDelays, if_pos hretry.2]
        exact List.cons_prefix_cons.mpr ⟨rfl, ih (k + 1) _⟩
      · have hcond : (decide (statuses k = 429) && decide (d < 20)) = false := by
          rcases Decidable.not_and_iff_or_not.mp hretry with h | h <;> simp [h]
        simp only [get_remote_file_content_go, hne, if_true, hcond, Bool.false_eq_true,
          if_false]
        exact hstart

/-- Claim C6, amended: the slept delays are always a prefix of 0, 1, 2,
4, 8, 16, 32 (the retry delay starts at one second and doubles while
the previous slept delay was under twenty seconds, so the final retry
sleeps up to 32 seconds and every slept delay is at most 32); a non-200
non-429 first response raises immediately after the zero sleep carrying
that status, and persistent 429 responses sleep the full chain and then
raise with status 429. -/
theorem c6_backoff_policy (statuses : Nat → Nat) :
    (get_remote_file_content statuses).1 <+: [0, 1, 2, 4, 8, 16, 32]
    ∧ (∀ d ∈ (get_remote_file_content statuses).1, d ≤ 32)
    ∧ (statuses 0 ≠ 200 → statuses 0 ≠ 429 →
        get_remote_file_content statuses = ([0], .error (statuses 0)))
    ∧ ((∀ k, k ≤ 6 → statuses k = 429) →
        get_remote_file_content statuses = ([0, 1, 2, 4, 8, 16, 32], .error 429)) := by
  have hpre : (get_remote_file_content statuses).1 <+: [0, 1, 2, 4, 8, 16, 32] := by
    have hgo := go_delays_prefix statuses 8 0 0
    have hb : boundedDelays 8 0 = [0, 1, 2, 4, 8, 16, 32] := by decide
    rw [hb] at hgo
    exact hgo
  refine ⟨hpre, ?_, ?_, ?_⟩
  · intro d hd
    have hmem := hpre.subset hd
    simp only [List.mem_cons, List.not_mem_nil, or_false] at hmem
    rcases hmem with rfl | rfl | rfl | rfl | rfl | rfl | rfl <;> norm_num
  · intro h200 h429
    have hne : (statuses 0 ≠ 200) = True := by simp [h200]
    have hcond : (decide (statuses 0 = 429) && decide ((0 : Nat) < 20)) = false := by
      simp [h429]
    simp only [get_remote_file_content, get_remote_file_content_go, hne, if_true, hcond,
      Bool.false_eq_true, if_false]
  · intro h
    have h0 := h 0 (by norm_num)
    have h1 := h 1 (by norm_num)
    have h2 := h 2 (by norm_num)
    have h3 := h 3 (by norm_num)
    have h4 := h 4 (by norm_num)
    have h5 := h 5 (by norm_num)
    have h6 := h 6 (by norm_num)
    simp [get_remote_file_content, get_remote_file_content_go, h0, h1, h2, h3, h4, h5, h6]

/-- Claim C6, witness: a 404 raises at once after the zero sleep, and
persistent 429 sleeps the full chain. -/
theorem c6_backoff_policy_witness :
    get_remote_file_content (fun _ => 404) = ([0], .error 404)
    ∧ get_remote_file_content (fun _ => 429) = ([0, 1, 2, 4, 8, 16, 32], .error 429) :=
  ⟨(c6_backoff_policy (fun _ => 404)).2.2.1 (by norm_num) (by norm_num),
   (c6_backoff_policy (fun _ => 429)).2.2.2 (fun _ _ => rfl)⟩

/-- Claim C9, counterexample: an empty operating system is outside the
known set, yet the raised error is the plain no-operating-system
exception rather than a ValueError naming the value. -/
theorem c9_claim_counterexample :
    resolve_dependencies (str "") (str "310") none [] [] none [] false false [] false
      trivialEngine = .error .noOperatingSystem
    ∧ ApiError.noOperatingSystem ≠ ApiError.invalidOperatingSystem (str "") :=
  ⟨by decide, by decide⟩

/-- Claim C9, amended: before any repository is constructed and before
any network fetch (the error results carry no effect trace), an empty
operating system or Python version raises the plain no-value exception,
and a non-empty value outside the known sets raises the ValueError
naming the value, the operating system being checked first. -/
theorem c9_validation_errors (os py : Str) (netrc : Option (Str × Bool))
    (rfs : List ReqFileParse) (specs : List DependentPackageM)
    (setup : Option SetupPyParse) (urls : List Str) (ja uo : Bool)
    (conf : List Str) (insec : Bool) (engine : EngineOutcome) :
    (os = [] →
      resolve_dependencies os py netrc rfs specs setup urls ja uo conf insec engine
        = .error .noOperatingSystem)
    ∧ (os ≠ [] → PLATFORMS_BY_OS.any (fun kv => kv.1 = os) = false →
      resolve_dependencies os py netrc rfs specs setup urls ja uo conf insec engine
        = .error (.invalidOperatingSystem os))
    ∧ (PLATFORMS_BY_OS.any (fun kv => kv.1 = os) = true → py = [] →
      resolve_dependencies os py netrc rfs specs setup urls ja uo conf insec engine
        = .error .noPythonVersion)
    ∧ (PLATFORMS_BY_OS.any (fun kv => kv.1 = os) = true → py ≠ [] →
        valid_python_versions.contains py = false →
      resolve_dependencies os py netrc rfs specs setup urls ja uo conf insec engine
        = .error (.invalidPythonVersion py)) := by
  have hosne : ∀ s : Str, s ≠ [] → s.isEmpty = false := by
    intro s hs
    cases s with
    | nil => exact absurd rfl hs
    | cons a t => rfl
  refine ⟨?_, ?_, ?_, ?_⟩
  · intro h
    subst h
    unfold resolve_dependencies
    rfl
  · intro hne hany
    unfold resolve_dependencies
    rw [hosne os hne, hany]
    rfl
  · intro hany h
    have hosn : os ≠ [] := by
      intro hc
      subst hc
      exact absurd hany (by decide)
    subst h
    unfold resolve_dependencies
    rw [hosne os hosn, hany]
    rfl
  · intro hany hpyne hcont
    unfold resolve_dependencies
    have hosn : os ≠ [] := by
      intro hc
      subst hc
      exact absurd hany (by decide)
    rw [hosne os hosn, hany, hosne py hpyne, hcont]
    rfl

/-- Claim C9, witness: the ValueError cases at an unknown operating
system and an unknown Python version. -/
theorem c9_validation_errors_witness :
    resolve_dependencies (str "foo-bar") (str "310") none [] [] none [] false false []
      false trivialEngine = .error (.invalidOperatingSystem (str "foo-bar"))
    ∧ resolve_dependencies (str "linux") (str "99") none [] [] none [] false false []
      false trivialEngine = .error (.invalidPythonVersion (str "99")) :=
  ⟨(c9_validation_errors (str "foo-bar") (str "310") none [] [] none [] false false []
      false trivialEngine).2.1 (by decide) (by decide),
   (c9_validation_errors (str "linux") (str "99") none [] [] none [] false false []
      false trivialEngine).2.2.2 (by decide) (by decide) (by decide)⟩

/-- Claim C10: when the merged direct dependencies of the requirement
files, the specifiers and the optional setup-py file are empty, and the
earlier stages raise nothing, resolve_dependencies returns a Resolution
whose packages and resolution lists are empty carrying only the parsed
files data, with an empty effect trace: no repository construction, no
resolver run and no package-data fetch. -/
theorem c10_empty_direct_dependencies
    (os py : Str) (netrc : Option (Str × Bool)) (rfs : List ReqFileParse)
    (specs : List DependentPackageM) (setup : Option SetupPyParse)
    (urls : List Str) (ja uo insec : Bool) (conf : List Str) (engine : EngineOutcome)
    (hos : PLATFORMS_BY_OS.any (fun kv => kv.1 = os) = true)
    (hosne : os ≠ [])
    (hpy : valid_python_versions.contains py = true)
    (hpyne : py ≠ [])
    (hnetrc : ∀ path, netrc ≠ some (path, false))
    (hsetup : ∀ s, setup = some s →
      valid_python_version (get_python_version_from_env_tag py) s.python_requires = true)
    (hempty : rfs.flatMap (fun f => f.deps) ++ specs
        ++ (match setup with
            | some s => setupPyDirectDeps insec s
            | none => []) = []) :
    resolve_dependencies os py netrc rfs specs setup urls ja uo conf insec engine
      = .ok ({ resolution := [], packages := [],
               files := rfs.map (fun f => { path := f.path, package_data := f.package_data })
                 ++ (match setup with
                     | some s => [{ path := s.path, package_data := s.package_data }]
                     | none => []) }, []) := by
  have hne : ∀ s : Str, s ≠ [] → s.isEmpty = false := by
    intro s hs
    cases s with
    | nil => exact absurd rfl hs
    | cons a t => rfl
  unfold resolve_dependencies
  rw [hne os hosne, hos, hne py hpyne, hpy]
  simp only [Bool.not_true, Bool.false_eq_true, if_false]
  have hrest : ∀ (files : List FileEntry) (iurls : List Str)
      (direct : List DependentPackageM), direct = [] →
      resolve_dependencies.resolveRest direct files iurls ja uo conf engine
        = .ok ({ resolution := [], packages := [], files := files }, []) := by
    intro files iurls direct hd
    subst hd
    rfl
  cases hnv : netrc with
  | none =>
    cases hsv : setup with
    | none =>
      simp only [hsv, List.append_nil] at hempty
      exact (hrest _ _ _ hempty).trans (by simp)
    | some s =>
      have hok := hsetup s hsv
      simp only [hsv] at hempty
      simp only [hok, Bool.not_true, Bool.false_eq_true, if_false]
      exact hrest _ _ _ hempty
  | some pb =>
    obtain ⟨path, b⟩ := pb
    cases b with
    | false => exact absurd hnv (by simpa using hnetrc path)
    | true =>
      cases hsv : setup with
      | none =>
        simp only [hsv, List.append_nil] at hempty
        exact (hrest _ _ _ hempty).trans (by simp)
      | some s =>
        have hok := hsetup s hsv
        simp only [hsv] at hempty
        simp only [hok, Bool.not_true, Bool.false_eq_true, if_false]
        exact hrest _ _ _ hempty

/-- Claim C10, witness: no inputs at all resolve to the empty Resolution
with no effects. -/
theorem c10_empty_direct_dependencies_witness :
    resolve_dependencies (str "linux") (str "310") none [] [] none [] false false []
      false trivialEngine
      = .ok ({ resolution := [], packages := [], files := [] }, []) :=
  (c10_empty_direct_dependencies (str "linux") (str "310") none [] [] none [] false
    false false [] trivialEngine (by decide) (by decide) (by decide) (by decide)
    (fun _ h => Option.noConfusion h) (fun _ h => Option.noConfusion h) rfl).trans
    (by simp)

/-- Claim C8: the sdist filename parser decides the boundary table
exactly, accepting the two plain name-version filenames and rejecting
the five filenames with embedded platform, single-digit build,
all-letter, dev-name or r-number versions. -/
theorem c8_sdist_boundary_table :
    get_sdist_name_ver_ext (str "intbitset-1.3.tar.gz")
      = some (str "intbitset", str "1.3", str ".tar.gz")
    ∧ get_sdist_name_ver_ext (str "intbitset-1.4a.zip")
      = some (str "intbitset", str "1.4a", str ".zip")
    ∧ get_sdist_name_ver_ext (str "intbitset-1.3.linux-x86_64.tar.gz") = none
    ∧ get_sdist_name_ver_ext (str "cffi-1.2.0-1.tar.gz") = none
    ∧ get_sdist_name_ver_ext (str "html5lib-1.0-reupload.tar.gz") = none
    ∧ get_sdist_name_ver_ext (str "selenium-2.0-dev-9429.tar.gz") = none
    ∧ get_sdist_name_ver_ext (str "testfixtures-1.8.0dev-r4464.tar.gz") = none :=
  ⟨by decide, by decide, by decide, by decide, by decide, by decide, by decide⟩

namespace C7Help

open VersionCmp

/-- The descending index scan finds the largest index satisfying
the predicate. -/
theorem downFrom_find?_eq_some (P : Nat → Bool) :
    ∀ (n m : Nat), m < n → P m = true → (∀ i, m < i → i < n → P i = false) →
      (downFrom n).find? P = some m := by
  intro n
  induction n with
  | zero => intro m hm; omega
  | succ n ih =>
    intro m hm hP hAbove
    by_cases h : m = n
    · subst h
      simp [downFrom, List.find?_cons_of_pos, hP]
    · have hmn : m < n := by omega
      have hn : P n = false := hAbove n hmn (by omega)
      rw [downFrom, List.find?_cons_of_neg _ (by simp [hn])]
      exact ih m hmn hP (fun i h1 h2 => hAbove i h1 (by omega))

theorem findLastOcc_append_self (sep t : Str) (hne : sep ≠ []) :
    findLastOcc sep (t ++ sep) = some t.length := by
  unfold findLastOcc
  apply downFrom_find?_eq_some
  · simp [List.length_append]
    have : 0 < sep.length := List.length_pos.mpr hne
    omega
  · rw [List.drop_left]
    simp [List.isPrefixOf_iff_prefix]
  · intro i hi1 hi2
    rw [Bool.eq_false_iff]
    intro hc
    rw [List.isPrefixOf_iff_prefix] at hc
    have hlen := hc.length_le
    rw [List.length_drop, List.length_append] at hlen
    have : 0 < sep.length := List.length_pos.mpr hne
    omega

theorem rpartition_append_self (sep t : Str) (hne : sep ≠ []) :
    rpartitionL sep (t ++ sep) = (t, sep, []) := by
  unfold rpartitionL
  rw [findLastOcc_append_self sep t hne]
  show (List.take t.length (t ++ sep), sep, List.drop (t.length + sep.length) (t ++ sep))
    = (t, sep, [])
  rw [List.take_left, show t.length + sep.length = (t ++ sep).length by simp,
    List.drop_length]

theorem findLastOcc_sep_char (c : Char) (a b : Str) (hb : c ∉ b) :
    findLastOcc [c] (a ++ c :: b) = some a.length := by
  unfold findLastOcc
  apply downFrom_find?_eq_some
  · simp [List.length_append]
    omega
  · have hd : (a ++ c :: b).drop a.length = c :: b := by
      rw [show a ++ c :: b = a ++ (c :: b) from rfl, List.drop_left]
    rw [hd]
    simp [List.isPrefixOf_iff_prefix]
  · intro i hi1 hi2
    rw [Bool.eq_false_iff]
    intro hc
    rw [List.isPrefixOf_iff_prefix] at hc
    have hdrop : (a ++ c :: b).drop i = b.drop (i - a.length - 1) := by
      conv_lhs => rw [show a ++ c :: b = (a ++ [c]) ++ b by simp,
        show i = (a ++ [c]).length + (i - a.length - 1) by simp; omega]
      rw [List.drop_append]
    rw [hdrop] at hc
    have hmem : c ∈ b.drop (i - a.length - 1) := hc.subset (by simp)
    exact hb (List.mem_of_mem_drop hmem)

theorem rpartition_sep_char (c : Char) (a b : Str) (hb : c ∉ b) :
    rpartitionL [c] (a ++ c :: b) = (a, [c], b) := by
  unfold rpartitionL
  rw [findLastOcc_sep_char c a b hb]
  show ((a ++ c :: b).take a.length, [c], (a ++ c :: b).drop (a.length + 1)) = (a, [c], b)
  have h1 : (a ++ c :: b).take a.length = a := List.take_left a (c :: b)
  have h2 : (a ++ c :: b).drop (a.length + 1) = b := by
    rw [show a ++ c :: b = (a ++ [c]) ++ b by simp,
      show a.length + 1 = (a ++ [c]).length + 0 by simp, List.drop_append, List.drop_zero]
  rw [h1, h2]

theorem containsSub_iff (pat s : Str) :
    containsSub pat s = true ↔ ∃ a b, s = a ++ pat ++ b := by
  unfold containsSub
  rw [List.any_eq_true]
  constructor
  · rintro ⟨i, hi, hpre⟩
    rw [List.isPrefixOf_iff_prefix] at hpre
    obtain ⟨b, hb⟩ := hpre
    exact ⟨s.take i, b, by rw [List.append_assoc, hb, List.take_append_drop]⟩
  · rintro ⟨a, b, rfl⟩
    refine ⟨a.length, ?_, ?_⟩
    · rw [List.mem_range]
      simp [List.length_append]
      omega
    · rw [List.append_assoc, List.drop_left, List.isPrefixOf_iff_prefix]
      exact ⟨b, rfl⟩

theorem containsSub_single_char (c : Char) (s : Str) :
    containsSub [c] s = true ↔ c ∈ s := by
  rw [containsSub_iff]
  constructor
  · rintro ⟨a, b, rfl⟩
    simp
  · intro h
    obtain ⟨a, b, rfl⟩ := List.append_of_mem h
    exact ⟨a, b, by simp⟩

theorem containsSub_append_singleton (pat v : Str) (ch : Char)
    (hne : pat ≠ []) (hch : ch ∉ pat) :
    containsSub pat (v ++ [ch]) = containsSub pat v := by
  cases hv : containsSub pat v with
  | true =>
    obtain ⟨a, b, rfl⟩ := (containsSub_iff pat v).mp hv
    exact (containsSub_iff pat _).mpr ⟨a, b ++ [ch], by simp⟩
  | false =>
    rw [Bool.eq_false_iff]
    intro hc
    obtain ⟨a, b, heq⟩ := (containsSub_iff pat _).mp hc
    rcases List.eq_nil_or_concat b with rfl | ⟨b', x, rfl⟩
    · obtain ⟨p', lp, rfl⟩ := (List.eq_nil_or_concat pat).resolve_left hne
      simp only [List.concat_eq_append, List.append_nil] at heq hch
      rw [show a ++ (p' ++ [lp]) = (a ++ p') ++ [lp] by simp] at heq
      obtain ⟨-, hc2⟩ := List.append_inj' heq rfl
      have hcl : ch = lp := by simpa using hc2
      exact hch (by simp [hcl])
    · simp only [List.concat_eq_append] at heq
      rw [show a ++ pat ++ (b' ++ [x]) = (a ++ pat ++ b') ++ [x] by simp] at heq
      obtain ⟨hv2, -⟩ := List.append_inj' heq rfl
      rw [Bool.eq_false_iff] at hv
      exact hv ((containsSub_iff pat v).mpr ⟨a, b', hv2⟩)

theorem startswith_append_singleton (pat v : Str) (ch : Char) (hch : ch ∉ pat)
    (h : startswithL pat (v ++ [ch]) = true) : startswithL pat v = true := by
  unfold startswithL at h ⊢
  rw [List.isPrefixOf_iff_prefix] at h ⊢
  obtain ⟨t, ht⟩ := h
  rcases List.eq_nil_or_concat t with rfl | ⟨t', x, rfl⟩
  · rw [List.append_nil] at ht
    exact absurd (ht ▸ (show ch ∈ v ++ [ch] by simp)) hch
  · simp only [List.concat_eq_append] at ht
    rw [show pat ++ (t' ++ [x]) = (pat ++ t') ++ [x] by simp] at ht
    obtain ⟨hv2, -⟩ := List.append_inj' ht rfl
    exact ⟨t', hv2⟩

theorem endswith_append_self (e t : Str) : endswithL e (t ++ e) = true := by
  unfold endswithL
  rw [List.isSuffixOf_iff_suffix]
  exact List.suffix_append t e

theorem suffix_getLast? (q s : Str) (hq : q ≠ []) (h : q <:+ s) :
    s.getLast? = q.getLast? := by
  obtain ⟨w, rfl⟩ := h
  exact List.getLast?_append_of_ne_nil w hq

theorem suffix_eq_of_length (q p u : Str) (h : q <:+ u ++ p)
    (hl : q.length = p.length) : q = p := by
  obtain ⟨w, hw⟩ := h
  have hlen : w.length = u.length := by
    have := congrArg List.length hw
    simp only [List.length_append] at this
    omega
  exact (List.append_inj hw hlen).2

theorem dropWhile_eq_self_of_not_mem (c : Char) (s : Str) (h : c ∉ s) :
    s.dropWhile (fun x => x = c) = s := by
  cases s with
  | nil => rfl
  | cons a t =>
    rw [List.dropWhile_cons]
    have ha : ¬(a = c) := fun hc => h (hc ▸ List.mem_cons_self a t)
    simp [ha]

theorem unquoteL_eq_self (s : Str) (h : '%' ∉ s) : unquoteL s = s := by
  induction s with
  | nil => rfl
  | cons c t ih =>
    have hc : ¬(c = '%') := fun hcc => h (hcc ▸ List.mem_cons_self c t)
    have ih2 : unquoteL t = t := ih (fun hm => h (List.mem_cons_of_mem c hm))
    rw [unquoteL.eq_def]
    split
    · rename_i heq
      exact absurd heq (List.cons_ne_nil c t)
    · rename_i a b rest heq
      injection heq with hh htl
      exact absurd hh hc
    · rename_i c' rest hno hpat
      injection hpat with hh htl
      rw [← hh, ← htl, ih2]

theorem get_filename_id (s : Str) (h1 : '/' ∉ s) (h2 : '%' ∉ s) :
    get_filename s = s := by
  unfold get_filename
  have hstrip : stripCharL '/' s = s := by
    unfold stripCharL
    rw [dropWhile_eq_self_of_not_mem '/' s h1,
      dropWhile_eq_self_of_not_mem '/' s.reverse (by simpa using h1),
      List.reverse_reverse]
  rw [hstrip]
  have hafter : afterLastChar '/' s = s := by
    unfold afterLastChar
    have hnone : findLastOcc ['/'] s = none := by
      unfold findLastOcc
      rw [List.find?_eq_none]
      intro i hi
      rw [Bool.not_eq_true, Bool.eq_false_iff]
      intro hcp
      rw [List.isPrefixOf_iff_prefix] at hcp
      exact h1 (List.mem_of_mem_drop (hcp.subset (by simp)))
    rw [hnone]
  rw [hafter]
  exact unquoteL_eq_self s h2


theorem sdist_find_ext (t e : Str) (he : e ∈ EXTENSIONS_SDIST) :
    EXTENSIONS_SDIST.find? (fun ext => endswithL ext (t ++ e)) = some e := by
  simp only [EXTENSIONS_SDIST, List.mem_cons, List.not_mem_nil, or_false] at he
  rcases he with rfl | rfl | rfl
  · rw [show EXTENSIONS_SDIST
        = [str ".tar.gz", str ".zip", str ".tar.xz"] from rfl]
    exact List.find?_cons_of_pos _ (endswith_append_self _ t)
  · have hno1 : endswithL (str ".tar.gz") (t ++ str ".zip") = false := by
      rw [Bool.eq_false_iff]
      intro hsfx
      unfold endswithL at hsfx
      rw [List.isSuffixOf_iff_suffix] at hsfx
      have hg := suffix_getLast? _ _ (by decide) hsfx
      rw [List.getLast?_append_of_ne_nil _ (by decide)] at hg
      exact absurd hg (by decide)
    rw [show EXTENSIONS_SDIST
        = [str ".tar.gz", str ".zip", str ".tar.xz"] from rfl]
    rw [List.find?_cons_of_neg _ (by simp [hno1])]
    exact List.find?_cons_of_pos _ (endswith_append_self _ t)
  · have hno1 : endswithL (str ".tar.gz") (t ++ str ".tar.xz") = false := by
      rw [Bool.eq_false_iff]
      intro hsfx
      unfold endswithL at hsfx
      rw [List.isSuffixOf_iff_suffix] at hsfx
      have heq := suffix_eq_of_length _ _ _ hsfx (by decide)
      exact absurd heq (by decide)
    have hno2 : endswithL (str ".zip") (t ++ str ".tar.xz") = false := by
      rw [Bool.eq_false_iff]
      intro hsfx
      unfold endswithL at hsfx
      rw [List.isSuffixOf_iff_suffix] at hsfx
      rw [show t ++ str ".tar.xz" = (t ++ str ".ta") ++ str "r.xz" by
        rw [List.append_assoc]; rfl] at hsfx
      have heq := suffix_eq_of_length _ _ _ hsfx (by decide)
      exact absurd heq (by decide)
    rw [show EXTENSIONS_SDIST
        = [str ".tar.gz", str ".zip", str ".tar.xz"] from rfl]
    rw [List.find?_cons_of_neg _ (by simp [hno1]),
      List.find?_cons_of_neg _ (by simp [hno2])]
    exact List.find?_cons_of_pos _ (endswith_append_self _ t)

theorem if_none_chain {α : Type} (c : Bool) (rest : Option α) (x : α)
    (h : (if c then none else rest) = some x) : c = false ∧ rest = some x := by
  cases c with
  | true => simp at h
  | false => exact ⟨rfl, h⟩

theorem rpartition_sep_component (sep s : Str) :
    (rpartitionL sep s).2.1 = [] ∨ (rpartitionL sep s).2.1 = sep := by
  unfold rpartitionL
  cases findLastOcc sep s with
  | none => exact Or.inl rfl
  | some i => exact Or.inr rfl

theorem sdist_parse_inv (s n v e : Str)
    (h : get_sdist_name_ver_ext s = some (n, v, e)) :
    e ∈ EXTENSIONS_SDIST ∧ n.isEmpty = false ∧ v.isEmpty = false ∧
      containsSub (str "x86_64") v = false ∧ containsSub (str "i386") v = false ∧
      containsSub (str "-") v = false ∧
      ([str "beta", str "rc", str "pre", str "post", str "final"].any
        (fun p => startswithL p v)) = false := by
  unfold get_sdist_name_ver_ext at h
  split at h
  · exact Option.noConfusion h
  · rename_i ext hfind
    simp only [] at h
    obtain ⟨hg0, h⟩ := if_none_chain _ _ _ h
    obtain ⟨hg1, h⟩ := if_none_chain _ _ _ h
    obtain ⟨hg2, h⟩ := if_none_chain _ _ _ h
    obtain ⟨hg3, h⟩ := if_none_chain _ _ _ h
    obtain ⟨hg4, h⟩ := if_none_chain _ _ _ h
    obtain ⟨hg5, h⟩ := if_none_chain _ _ _ h
    obtain ⟨hg6, h⟩ := if_none_chain _ _ _ h
    obtain ⟨hg7, h⟩ := if_none_chain _ _ _ h
    obtain ⟨hg8, h⟩ := if_none_chain _ _ _ h
    obtain ⟨hg9, h⟩ := if_none_chain _ _ _ h
    rw [Option.some.injEq, Prod.mk.injEq, Prod.mk.injEq] at h
    obtain ⟨hn, hv, he⟩ := h
    subst hn
    subst hv
    subst he
    obtain ⟨hee, -⟩ := Bool.or_eq_false_iff.mp hg0
    obtain ⟨hne2, hve2⟩ := Bool.or_eq_false_iff.mp hg1
    obtain ⟨hx1, hx2⟩ := Bool.or_eq_false_iff.mp hg2
    refine ⟨?_, hne2, hve2, hx1, hx2, hg4, hg9⟩
    rcases rpartition_sep_component ext s with hc | hc
    · rw [hc] at hee
      simp at hee
    · rw [hc]
      exact List.mem_of_find?_eq_some hfind

set_option maxHeartbeats 1000000 in
theorem sdist_forward_parse (n v e : Str)
    (hne : n.isEmpty = false) (hve : v.isEmpty = false)
    (hemem : e ∈ EXTENSIONS_SDIST)
    (hx1 : containsSub (str "x86_64") v = false)
    (hx2 : containsSub (str "i386") v = false)
    (hdash : containsSub (str "-") v = false)
    (hany : ([str "beta", str "rc", str "pre", str "post", str "final"].any
      (fun p => startswithL p v)) = false) :
    get_sdist_name_ver_ext (n ++ str "-" ++ v ++ str "." ++ e)
      = some (n, v ++ str ".", e) := by
  obtain ⟨a, n2, rfl⟩ : ∃ a n2, n = a :: n2 := by
    cases n with
    | nil => exact absurd hne (by decide)
    | cons a n2 => exact ⟨a, n2, rfl⟩
  obtain ⟨b, v2, rfl⟩ : ∃ b v2, v = b :: v2 := by
    cases v with
    | nil => exact absurd hve (by decide)
    | cons b v2 => exact ⟨b, v2, rfl⟩
  have hedisj : e = str ".tar.gz" ∨ e = str ".zip" ∨ e = str ".tar.xz" := by
    simpa [EXTENSIONS_SDIST] using hemem
  have heni : e ≠ [] := by rcases hedisj with rfl | rfl | rfl <;> decide
  have hdashm : '-' ∉ (b :: v2) := by
    intro hm
    have h2 : containsSub (str "-") (b :: v2) = true :=
      (containsSub_single_char '-' (b :: v2)).mpr hm
    rw [hdash] at h2
    exact absurd h2 (by decide)
  have hsep : '-' ∉ (b :: v2) ++ str "." := by
    intro hm
    rcases List.mem_append.mp hm with hm1 | hm1
    · exact hdashm hm1
    · exact absurd hm1 (by decide)
  have hcx1 : containsSub (str "x86_64") ((b :: v2) ++ str ".") = false :=
    (containsSub_append_singleton (str "x86_64") (b :: v2) '.'
      (by decide) (by decide)).trans hx1
  have hcx2 : containsSub (str "i386") ((b :: v2) ++ str ".") = false :=
    (containsSub_append_singleton (str "i386") (b :: v2) '.'
      (by decide) (by decide)).trans hx2
  have hcdash : containsSub (str "-") ((b :: v2) ++ str ".") = false :=
    (containsSub_append_singleton (str "-") (b :: v2) '.'
      (by decide) (by decide)).trans hdash
  have hcdot : containsSub (str ".") ((b :: v2) ++ str ".") = true :=
    (containsSub_single_char '.' ((b :: v2) ++ str ".")).mpr
      (List.mem_append.mpr (Or.inr (by decide)))
  have halpha : isalphaL ((b :: v2) ++ str ".") = false := by
    unfold isalphaL
    rw [List.all_append, show (str ".").all Char.isAlpha = false from by decide]
    simp
  have hdig : isdigitL ((b :: v2) ++ str ".") = false := by
    unfold isdigitL
    rw [List.all_append, show (str ".").all Char.isDigit = false from by decide]
    simp
  unfold get_sdist_name_ver_ext
  rw [sdist_find_ext ((a :: n2) ++ str "-" ++ (b :: v2) ++ str ".") e hemem]
  simp only []
  rw [rpartition_append_self e ((a :: n2) ++ str "-" ++ (b :: v2) ++ str ".") heni]
  simp only []
  have hq : rpartitionL (str "-") ((a :: n2) ++ str "-" ++ (b :: v2) ++ str ".")
      = (a :: n2, str "-", (b :: v2) ++ str ".") := by
    have h1 : (a :: n2) ++ str "-" ++ (b :: v2) ++ str "."
        = (a :: n2) ++ '-' :: ((b :: v2) ++ str ".") := by
      rw [List.append_assoc, List.append_assoc]
      rfl
    rw [h1]
    exact rpartition_sep_char '-' (a :: n2) ((b :: v2) ++ str ".") hsep
  have hq1 : (rpartitionL (str "-") ((a :: n2) ++ str "-" ++ (b :: v2) ++ str ".")).1
      = a :: n2 := by rw [hq]
  have hq2 : (rpartitionL (str "-") ((a :: n2) ++ str "-" ++ (b :: v2) ++ str ".")).2.2
      = (b :: v2) ++ str "." := by rw [hq]
  rw [hq1, hq2]
  have hn0 : ((List.isEmpty e
      || ((a :: n2) ++ str "-" ++ (b :: v2) ++ str ".").isEmpty) = true) → False := by
    intro hc
    have hc2 : (List.isEmpty e || false) = true := hc
    rw [Bool.or_false] at hc2
    rcases hedisj with rfl | rfl | rfl <;> exact absurd hc2 (by decide)
  have hn1 : (((a :: n2).isEmpty || ((b :: v2) ++ str ".").isEmpty) = true) → False :=
    fun hc => absurd (show (false || false) = true from hc) (by decide)
  have hn2 : ((containsSub (str "x86_64") ((b :: v2) ++ str ".")
      || containsSub (str "i386") ((b :: v2) ++ str ".")) = true) → False := by
    intro hc
    rw [hcx1, hcx2] at hc
    exact absurd hc (by decide)
  have hn3 : (isalphaL ((b :: v2) ++ str ".") = true) → False := by
    intro hc
    rw [halpha] at hc
    exact absurd hc (by decide)
  have hn4 : (containsSub (str "-") ((b :: v2) ++ str ".") = true) → False := by
    intro hc
    rw [hcdash] at hc
    exact absurd hc (by decide)
  have hn5 : ((isdigitL ((b :: v2) ++ str ".")
      && ((b :: v2) ++ str ".").length = 1) = true) → False := by
    intro hc
    rw [hdig] at hc
    simp at hc
  have hn7 : ((!containsSub (str ".") ((b :: v2) ++ str ".")
      && ((b :: v2) ++ str ".").length < 3) = true) → False := by
    intro hc
    rw [hcdot] at hc
    simp at hc
  have hn8 : ((endswithL (str "dev") (a :: n2)
      && !containsSub (str ".") ((b :: v2) ++ str ".")) = true) → False := by
    intro hc
    rw [hcdot] at hc
    simp at hc
  have hn9 : (([str "beta", str "rc", str "pre", str "post", str "final"].any
      (fun p => startswithL p ((b :: v2) ++ str "."))) = true) → False := by
    intro hc
    obtain ⟨p, hp, hps⟩ := List.any_eq_true.mp hc
    simp only [List.mem_cons, List.not_mem_nil, or_false] at hp
    simp only [List.any_cons, List.any_nil, Bool.or_eq_false_iff] at hany
    obtain ⟨hb1, hb2, hb3, hb4, hb5, -⟩ := hany
    rcases hp with rfl | rfl | rfl | rfl | rfl
    · exact absurd (startswith_append_singleton _ (b :: v2) '.'
        (by decide) hps) (by simp [hb1])
    · exact absurd (startswith_append_singleton _ (b :: v2) '.'
        (by decide) hps) (by simp [hb2])
    · exact absurd (startswith_append_singleton _ (b :: v2) '.'
        (by decide) hps) (by simp [hb3])
    · exact absurd (startswith_append_singleton _ (b :: v2) '.'
        (by decide) hps) (by simp [hb4])
    · exact absurd (startswith_append_singleton _ (b :: v2) '.'
        (by decide) hps) (by simp [hb5])
  rw [if_neg hn0, if_neg hn1, if_neg hn2, if_neg hn3, if_neg hn4, if_neg hn5]
  split
  · rename_i h6
    simp only [Bool.and_eq_true, decide_eq_true_eq] at h6
    obtain ⟨⟨h6len, -⟩, h6b⟩ := h6
    have hv2 : v2 = [] := by
      rw [List.length_append, List.length_cons,
        show (str ".").length = 1 from by decide] at h6len
      exact List.length_eq_zero.mp (by omega)
    subst hv2
    exact absurd (show false = true from h6b) (by decide)
  · rfl

end C7Help

open C7Help in
/-- Claim C7, amended (sdist half): reparsing the reconstructed filename
of a parsed sdist succeeds but shifts the version: to_filename inserts a
dot before the extension field that already carries its leading dot, so
the reparse returns the same name and extension with version
w.version ++ dot and the doubled-dot filename.  The no-slash and
no-percent hypotheses keep get_filename from rewriting the name. -/
theorem c7_sdist_reparse_shift (fn : Str) (w : SdistModel)
    (h : Sdist.from_filename fn = some w)
    (hs1 : '/' ∉ w.name) (hs2 : '/' ∉ w.version)
    (hp1 : '%' ∉ w.name) (hp2 : '%' ∉ w.version) :
    Sdist.from_filename (Sdist.to_filename w)
      = some { w with version := w.version ++ str ".",
                      filename := Sdist.to_filename w } := by
  unfold Sdist.from_filename at h
  simp only [] at h
  rcases hg : get_sdist_name_ver_ext (get_filename fn) with - | ⟨nn, vv, ee⟩
  · rw [hg] at h
    exact Option.noConfusion h
  · rw [hg] at h
    have h2 : some (⟨nn, vv, ee, get_filename fn⟩ : SdistModel) = some w := h
    obtain rfl := (Option.some.inj h2).symm
    obtain ⟨hext, hnne, hvve, hx1, hx2, hdash, hany⟩ := sdist_parse_inv _ _ _ _ hg
    have hs1n : '/' ∉ nn := hs1
    have hs2n : '/' ∉ vv := hs2
    have hp1n : '%' ∉ nn := hp1
    have hp2n : '%' ∉ vv := hp2
    have hedisj : ee = str ".tar.gz" ∨ ee = str ".zip" ∨ ee = str ".tar.xz" := by
      simpa [EXTENSIONS_SDIST] using hext
    have hsl : '/' ∉ Sdist.to_filename (⟨nn, vv, ee, get_filename fn⟩ : SdistModel) := by
      intro hm
      have hm2 : '/' ∈ nn ++ str "-" ++ vv ++ str "." ++ ee := hm
      rcases List.mem_append.mp hm2 with hm3 | hm3
      · rcases List.mem_append.mp hm3 with hm4 | hm4
        · rcases List.mem_append.mp hm4 with hm5 | hm5
          · rcases List.mem_append.mp hm5 with hm6 | hm6
            · exact hs1n hm6
            · exact absurd hm6 (by decide)
          · exact hs2n hm5
        · exact absurd hm4 (by decide)
      · rcases hedisj with rfl | rfl | rfl <;> exact absurd hm3 (by decide)
    have hpc : '%' ∉ Sdist.to_filename (⟨nn, vv, ee, get_filename fn⟩ : SdistModel) := by
      intro hm
      have hm2 : '%' ∈ nn ++ str "-" ++ vv ++ str "." ++ ee := hm
      rcases List.mem_append.mp hm2 with hm3 | hm3
      · rcases List.mem_append.mp hm3 with hm4 | hm4
        · rcases List.mem_append.mp hm4 with hm5 | hm5
          · rcases List.mem_append.mp hm5 with hm6 | hm6
            · exact hp1n hm6
            · exact absurd hm6 (by decide)
          · exact hp2n hm5
        · exact absurd hm4 (by decide)
      · rcases hedisj with rfl | rfl | rfl <;> exact absurd hm3 (by decide)
    have hfwd : get_sdist_name_ver_ext
        (Sdist.to_filename (⟨nn, vv, ee, get_filename fn⟩ : SdistModel))
        = some (nn, vv ++ str ".", ee) :=
      sdist_forward_parse nn vv ee hnne hvve hext hx1 hx2 hdash hany
    unfold Sdist.from_filename
    simp only []
    rw [get_filename_id _ hsl hpc, hfwd]


set_option maxRecDepth 10000 in
/-- Witness for the C7 sdist theorem at the boundary-table filename
intbitset-1.3.tar.gz: the reconstruction reparses with version 1.3
followed by a dot. -/
theorem c7_sdist_reparse_shift_witness :
    Sdist.from_filename (str "intbitset-1.3.tar.gz") = some sdistIntbitset
    ∧ Sdist.from_filename (Sdist.to_filename sdistIntbitset)
        = some { sdistIntbitset with
                 version := sdistIntbitset.version ++ str ".",
                 filename := Sdist.to_filename sdistIntbitset } :=
  ⟨by decide, c7_sdist_reparse_shift (str "intbitset-1.3.tar.gz") sdistIntbitset
    (by decide) (by decide) (by decide) (by decide) (by decide)⟩

set_option maxRecDepth 10000 in
set_option maxHeartbeats 1000000 in
/-- Claim C7, counterexample: the round trip is not the identity for
either kind.  The sdist intbitset-1.3.tar.gz reconstructs to
intbitset-1.3..tar.gz and reparses with version 1.3-dot; the wheel
aboutcode_toolkit-5.1.0-py2.py3-none-any.whl reconstructs with a hyphen
in the name and reparses with name aboutcode, version toolkit and build
5.1.0 - far beyond a tag reordering. -/
theorem c7_claim_counterexample :
    Sdist.from_filename (str "intbitset-1.3.tar.gz") = some sdistIntbitset
    ∧ Sdist.from_filename (Sdist.to_filename sdistIntbitset)
        = some { sdistIntbitset with version := str "1.3.",
                                     filename := str "intbitset-1.3..tar.gz" }
    ∧ Sdist.from_filename (Sdist.to_filename sdistIntbitset) ≠ some sdistIntbitset
    ∧ Wheel.from_filename (str "aboutcode_toolkit-5.1.0-py2.py3-none-any.whl")
        = some wheelAboutcode
    ∧ Wheel.from_filename (Wheel.to_filename wheelAboutcode)
        = some { wheelAboutcode with
                 name := str "aboutcode", version := str "toolkit",
                 build := some (str "5.1.0"),
                 filename := str "aboutcode-toolkit-5.1.0-py2.py3-none-any.whl" }
    ∧ Wheel.from_filename (Wheel.to_filename wheelAboutcode) ≠ some wheelAboutcode :=
  ⟨by decide, by decide, by decide, by decide, by decide, by decide⟩
